import Mathlib

/-!
Verification of the PyDebtZero debt-repayment simulation engine
(`src/Loan.py`, `src/Wallet.py`).

The Python code is shallowly embedded here.  Modelling conventions:

* Python floats are modelled as exact rationals (`ℚ`); the claims under
  study are about the allocation / amortization algorithms, not about
  floating-point rounding.
* The `loans` dictionary of a `Wallet` is modelled as an association
  list `List (LoanId × Loan)` in insertion order; Python `dict` keys are
  distinct, which appears as `Nodup` hypotheses on the key list.
* `Loan.amount_still_owed` is `None` before a simulation starts, so it
  is modelled as `Option ℚ` exactly as in the source.  Code paths that
  Python only ever executes with an initialized balance read the balance
  through `owedQ` (defaulting `none` to `0`); the theorems about those
  paths carry the corresponding definedness hypotheses.
* Python's unbounded `while` loop is modelled with explicit fuel: the
  loop runner returns `none` when the fuel is exhausted while the loop
  guard still holds, and `some result` when the guard becomes false.
* The spiral strategy divides by `loan.apr`; Python raises
  `ZeroDivisionError` when some `apr` is `0`, which is modelled by the
  ranking returning `none` (`Option`-valued fallible code).
-/

namespace PyDebtZero

/-- Loan identifier (a Python dict key). -/
abbrev LoanId := Nat

/-- Embedding of `class Loan` (src/Loan.py): one debt's static terms plus
the mutable simulation balance `amount_still_owed` (`None` before a
simulation starts). -/
structure Loan where
  name : String
  principal_amount : ℚ
  apr : ℚ
  months_to_desired_completion : Nat
  minimum_payment_default : Option ℚ
  amount_still_owed : Option ℚ
deriving DecidableEq, Repr

/-- `Loan.yearly_interest_rate` property: `self.apr/100.`. -/
def Loan.yearly_interest_rate (l : Loan) : ℚ :=
  l.apr / 100

/-- `Loan.monthly_interest_rate` property: `self.yearly_interest_rate/12.`. -/
def Loan.monthly_interest_rate (l : Loan) : ℚ :=
  l.yearly_interest_rate / 12

/-- `Loan.monthly_interest_amp` property: `1+self.monthly_interest_rate`. -/
def Loan.monthly_interest_amp (l : Loan) : ℚ :=
  1 + l.monthly_interest_rate

/-- `Loan.compute_minimum_required_payment` (src/Loan.py lines 61-77). -/
def Loan.compute_minimum_required_payment (l : Loan) : ℚ :=
  if l.monthly_interest_rate = 0 then
    l.principal_amount / (l.months_to_desired_completion : ℚ)
  else
    let amp := l.monthly_interest_amp ^ l.months_to_desired_completion
    l.monthly_interest_rate * l.principal_amount * amp / (amp - 1)

/-- `Loan.minimum_payment` property: the override if one was supplied,
otherwise the computed amortization payment. -/
def Loan.minimum_payment (l : Loan) : ℚ :=
  match l.minimum_payment_default with
  | some p => p
  | none => l.compute_minimum_required_payment

/-- `Loan.minimum_payment_simulation` property (src/Loan.py lines 38-48). -/
def Loan.minimum_payment_simulation (l : Loan) : ℚ :=
  match l.amount_still_owed with
  | none => 0
  | some a => if a < l.minimum_payment then a else l.minimum_payment

/-- `Loan.compute_single_cycle_earned_interest` (src/Loan.py lines 79-84):
note that this legacy variant accrues interest on the ORIGINAL principal. -/
def Loan.compute_single_cycle_earned_interest (l : Loan) : ℚ :=
  l.principal_amount * (l.monthly_interest_amp - 1)

/-- `Loan.compute_single_cycle_earned_interest_simulation`
(src/Loan.py lines 86-95): interest on the current simulated balance,
`0` when the balance is undefined. -/
def Loan.compute_single_cycle_earned_interest_simulation (l : Loan) : ℚ :=
  match l.amount_still_owed with
  | none => 0
  | some a => a * (l.monthly_interest_amp - 1)

/-- The simulated balance as a rational; Python code that reaches this read
always has an initialized (non-`None`) balance. -/
def owedQ (l : Loan) : ℚ :=
  l.amount_still_owed.getD 0

/-- Embedding of `class Wallet` (src/Wallet.py): the loan dictionary in
insertion order, the budget, and the simulation output fields. -/
structure Wallet where
  loans : List (LoanId × Loan)
  budget_ceiling : ℚ
  payment_history : List (LoanId × List ℚ) := []
  balance_history : List (LoanId × List ℚ) := []
  interest_history : List (LoanId × List ℚ) := []
  method_used_name : Option String := none
  months_in_history : Option Nat := none
deriving DecidableEq, Repr

/-- The key list of the loan dictionary. -/
def keysOf (loans : List (LoanId × Loan)) : List LoanId :=
  loans.map Prod.fst

/-- `self.loans[loan_id]`: dictionary lookup. -/
def lookupLoan (loans : List (LoanId × Loan)) (id : LoanId) : Option Loan :=
  loans.lookup id

/-- `self.loans[loan_id].amount_still_owed`, read as a rational. -/
def owedOfL (loans : List (LoanId × Loan)) (id : LoanId) : ℚ :=
  match lookupLoan loans id with
  | some l => owedQ l
  | none => 0

/-- `loan.apr` of the loan registered under `id`. -/
def aprOfL (loans : List (LoanId × Loan)) (id : LoanId) : ℚ :=
  match lookupLoan loans id with
  | some l => l.apr
  | none => 0

/-- `Wallet.total_still_owed` property (src/Wallet.py lines 22-27). -/
def Wallet.total_still_owed (w : Wallet) : ℚ :=
  (w.loans.map (fun p => owedQ p.2)).sum

/-- The payment dictionary initialized with every loan's
`minimum_payment_simulation`, read as a function on ids. -/
def minPaymentsL (loans : List (LoanId × Loan)) : LoanId → ℚ :=
  fun id =>
    match lookupLoan loans id with
    | some l => l.minimum_payment_simulation
    | none => 0

/-- `np.sum(payments.values())` right after the payment dictionary is
filled with the minimum simulated payments. -/
def sumMinSimL (loans : List (LoanId × Loan)) : ℚ :=
  (loans.map (fun p => p.2.minimum_payment_simulation)).sum

/-- Sum of the loans' (static) `minimum_payment` values. -/
def sumStaticMin (loans : List (LoanId × Loan)) : ℚ :=
  (loans.map (fun p => p.2.minimum_payment)).sum

/-! ### Priority ranking

Python sorts `dict.items()` by value (`key=operator.itemgetter(1)`) with a
stable sort; we embed that as a stable insertion sort on `(id, key)` pairs. -/

/-- Insert a pair into a list sorted by second component (stable). -/
def insertPair (p : LoanId × ℚ) : List (LoanId × ℚ) → List (LoanId × ℚ)
  | [] => [p]
  | q :: rest => if p.2 ≤ q.2 then p :: q :: rest else q :: insertPair p rest

/-- `sorted(pairs, key=operator.itemgetter(1))`: stable sort by value. -/
def sortPairs : List (LoanId × ℚ) → List (LoanId × ℚ)
  | [] => []
  | p :: rest => insertPair p (sortPairs rest)

/-- `Wallet.get_debt_snowball_loan_priority_ids` (src/Wallet.py lines
97-105): ids sorted by ascending `amount_still_owed`. -/
def snowballPriorityIds (loans : List (LoanId × Loan)) : List LoanId :=
  (sortPairs (loans.map (fun p => (p.1, owedQ p.2)))).map Prod.fst

/-- `Wallet.get_debt_avalanche_loan_priority_ids` (src/Wallet.py lines
174-183): ids sorted by ascending `yearly_interest_rate`, then reversed. -/
def avalanchePriorityIds (loans : List (LoanId × Loan)) : List LoanId :=
  ((sortPairs (loans.map (fun p => (p.1, p.2.yearly_interest_rate)))).map Prod.fst).reverse

/-- The value list `{loan_id: loan.amount_still_owed/loan.apr}` built by
`get_debt_spiral_loan_priority_ids`; Python raises `ZeroDivisionError`
when some `apr` is `0`, modelled as `none`. -/
def spiralRatios : List (LoanId × Loan) → Option (List (LoanId × ℚ))
  | [] => some []
  | p :: rest =>
    if p.2.apr = 0 then none
    else (spiralRatios rest).map (fun r => (p.1, owedQ p.2 / p.2.apr) :: r)

/-- `Wallet.get_debt_spiral_loan_priority_ids` (src/Wallet.py lines
252-260): ids sorted by ascending `amount_still_owed/apr`, NOT reversed;
`none` when a division by zero occurs. -/
def spiralPriorityIds (loans : List (LoanId × Loan)) : Option (List LoanId) :=
  (spiralRatios loans).map (fun rs => (sortPairs rs).map Prod.fst)

/-- Wallet wrapper for the snowball ranking method. -/
def Wallet.get_debt_snowball_loan_priority_ids (w : Wallet) : List LoanId :=
  snowballPriorityIds w.loans

/-- Wallet wrapper for the avalanche ranking method. -/
def Wallet.get_debt_avalanche_loan_priority_ids (w : Wallet) : List LoanId :=
  avalanchePriorityIds w.loans

/-- Wallet wrapper for the spiral ranking method. -/
def Wallet.get_debt_spiral_loan_priority_ids (w : Wallet) :
    Option (List LoanId) :=
  spiralPriorityIds w.loans

/-! ### Payment allocation (the monthly waterfall) -/

/-- `payments[loan_id] = v` on a functional payment dictionary. -/
def updateFn (f : LoanId → ℚ) (id : LoanId) (v : ℚ) : LoanId → ℚ :=
  fun j => if j = id then v else f j

/-- The `for loan_id in loan_priority_ids` loop shared by the three
`get_debt_*_payment_installment` methods (src/Wallet.py lines 82-92,
159-169, 237-247): walk the priority order, give each loan its remaining
need until `amount_left` runs out. -/
def allocateExtra (loans : List (LoanId × Loan)) :
    List LoanId → (LoanId → ℚ) → ℚ → (LoanId → ℚ)
  | [], payments, _ => payments
  | id :: rest, payments, amount_left =>
    if owedOfL loans id - payments id = 0 then
      allocateExtra loans rest payments amount_left
    else if amount_left ≤ owedOfL loans id - payments id then
      updateFn payments id (payments id + amount_left)
    else
      allocateExtra loans rest
        (updateFn payments id (payments id + (owedOfL loans id - payments id)))
        (amount_left - (owedOfL loans id - payments id))

/-- Body shared by the three `get_debt_*_payment_installment` methods:
assign minimum simulated payments, then distribute
`budget_ceiling - sum(minimums)` along the given priority order. -/
def paymentInstallment (loans : List (LoanId × Loan)) (budget : ℚ)
    (priority : List LoanId) : LoanId → ℚ :=
  allocateExtra loans priority (minPaymentsL loans) (budget - sumMinSimL loans)

/-- `Wallet.get_debt_snowball_payment_installment` (src/Wallet.py lines
64-95). -/
def Wallet.get_debt_snowball_payment_installment (w : Wallet) : LoanId → ℚ :=
  paymentInstallment w.loans w.budget_ceiling (snowballPriorityIds w.loans)

/-- `Wallet.get_debt_avalanche_payment_installment` (src/Wallet.py lines
141-172). -/
def Wallet.get_debt_avalanche_payment_installment (w : Wallet) : LoanId → ℚ :=
  paymentInstallment w.loans w.budget_ceiling (avalanchePriorityIds w.loans)

/-- `Wallet.get_debt_spiral_payment_installment` (src/Wallet.py lines
219-250); `none` when the spiral ranking divides by zero. -/
def Wallet.get_debt_spiral_payment_installment (w : Wallet) :
    Option (LoanId → ℚ) :=
  (spiralPriorityIds w.loans).map
    (fun priority => paymentInstallment w.loans w.budget_ceiling priority)

/-! ### The monthly simulation loop -/

/-- Append one per-loan value to every sequence of a history dictionary. -/
def appendHistory (h : List (LoanId × List ℚ)) (f : LoanId → ℚ) :
    List (LoanId × List ℚ) :=
  h.map (fun p => (p.1, p.2 ++ [f p.1]))

/-- Loop step (a): record every current balance into `balance_history`. -/
def recordBalances (w : Wallet) : Wallet :=
  { w with balance_history := appendHistory w.balance_history (owedOfL w.loans) }

/-- Loop step (b): record the month's payments into `payment_history` and
subtract each from the corresponding balance. -/
def applyPayments (w : Wallet) (payments : LoanId → ℚ) : Wallet :=
  { w with
    payment_history := appendHistory w.payment_history payments
    loans := w.loans.map (fun p =>
      (p.1, { p.2 with amount_still_owed := some (owedQ p.2 - payments p.1) })) }

/-- `loan.compute_single_cycle_earned_interest_simulation()` for the loan
registered under `id`. -/
def cycleInterestOf (loans : List (LoanId × Loan)) (id : LoanId) : ℚ :=
  match lookupLoan loans id with
  | some l => l.compute_single_cycle_earned_interest_simulation
  | none => 0

/-- Loop step (c): record each loan's earned interest into
`interest_history` and add it back to the balance. -/
def accrueInterest (w : Wallet) : Wallet :=
  { w with
    interest_history := appendHistory w.interest_history (cycleInterestOf w.loans)
    loans := w.loans.map (fun p =>
      (p.1,
        { p.2 with amount_still_owed := some (owedQ p.2 + p.2.compute_single_cycle_earned_interest_simulation) })) }

/-- One iteration of the `while self.total_still_owed > 0.` loop of
`generate_debt_snowball_plan` (src/Wallet.py lines 38-57): record
balances, compute and apply the snowball payments, then accrue interest. -/
def snowballMonthStep (w : Wallet) : Wallet :=
  accrueInterest (applyPayments (recordBalances w)
    ((recordBalances w).get_debt_snowball_payment_installment))

/-- `Wallet._initialize_simulation` (src/Wallet.py lines 328-344). -/
def initSimulation (w : Wallet) : Wallet :=
  { w with
    payment_history := w.loans.map (fun p => (p.1, []))
    balance_history := w.loans.map (fun p => (p.1, []))
    interest_history := w.loans.map (fun p => (p.1, []))
    method_used_name := none
    months_in_history := none
    loans := w.loans.map (fun p =>
      (p.1, { p.2 with amount_still_owed := some p.2.principal_amount })) }

/-- The snowball `while` loop with explicit fuel; `m` is `months_passed`.
`none` means the fuel ran out while the loop guard still held. -/
def snowballLoop : Nat → Wallet → Nat → Option (Wallet × Nat)
  | 0, w, m => if 0 < w.total_still_owed then none else some (w, m)
  | fuel + 1, w, m =>
    if 0 < w.total_still_owed then
      snowballLoop fuel (snowballMonthStep w) (m + 1)
    else some (w, m)

/-- `Wallet.generate_debt_snowball_plan` (src/Wallet.py lines 29-61), with
fuel for the unbounded loop. -/
def Wallet.generate_debt_snowball_plan (w : Wallet) (fuel : Nat) :
    Option Wallet :=
  (snowballLoop fuel (initSimulation w) 0).map (fun r =>
    { r.1 with
      method_used_name := some "Debt-Snowball"
      months_in_history := some r.2 })

/-- One iteration of the `generate_debt_spiral_plan` loop (src/Wallet.py
lines 194-213); `none` when the spiral ranking divides by zero. -/
def spiralMonthStep (w : Wallet) : Option Wallet :=
  ((recordBalances w).get_debt_spiral_payment_installment).map
    (fun payments => accrueInterest (applyPayments (recordBalances w) payments))

/-- The spiral `while` loop: `Except.error ()` models the uncaught
`ZeroDivisionError`; `Except.ok none` means the fuel ran out. -/
def spiralLoop : Nat → Wallet → Nat → Except Unit (Option (Wallet × Nat))
  | 0, w, m =>
    if 0 < w.total_still_owed then Except.ok none else Except.ok (some (w, m))
  | fuel + 1, w, m =>
    if 0 < w.total_still_owed then
      match spiralMonthStep w with
      | none => Except.error ()
      | some w' => spiralLoop fuel w' (m + 1)
    else Except.ok (some (w, m))

/-- `Wallet.generate_debt_spiral_plan` (src/Wallet.py lines 185-217). -/
def Wallet.generate_debt_spiral_plan (w : Wallet) (fuel : Nat) :
    Except Unit (Option Wallet) :=
  (spiralLoop fuel (initSimulation w) 0).map (fun r =>
    r.map (fun p =>
      { p.1 with
        method_used_name := some "Debt-Spiral"
        months_in_history := some p.2 }))

/-! ### Predicates used to state the claims -/

/-- The budget-contract of §4.3 for one month's payment mapping: total at
most the budget; total exactly the budget whenever some loan is not fully
funded; no per-loan overpayment. -/
def installmentOk (w : Wallet) (pay : LoanId → ℚ) : Prop :=
  ((keysOf w.loans).map pay).sum ≤ w.budget_ceiling ∧
  ((∃ id ∈ keysOf w.loans, pay id < owedOfL w.loans id) →
    ((keysOf w.loans).map pay).sum = w.budget_ceiling) ∧
  (∀ id ∈ keysOf w.loans, pay id ≤ owedOfL w.loans id)

/-- The snowball plan generation terminates for some amount of fuel. -/
def planTerminates (w : Wallet) : Prop :=
  ∃ fuel w', w.generate_debt_snowball_plan fuel = some w'

/-- Guaranteed monthly decrease of a loan's balance while the balance is
at least the minimum payment:
`minimum_payment * amp - monthly_rate * principal`. -/
def stepDecrease (l : Loan) : ℚ :=
  l.minimum_payment * l.monthly_interest_amp
    - l.monthly_interest_rate * l.principal_amount

/-- Termination measure of a single loan. -/
def loanMeasure (l : Loan) : Nat :=
  Nat.ceil (owedQ l / stepDecrease l)

/-- Termination measure of a wallet: sum of the loan measures. -/
def walletMeasure (w : Wallet) : Nat :=
  (w.loans.map (fun p => loanMeasure p.2)).sum

/-- Invariant of the snowball simulation states under which the loop makes
progress: distinct keys, initialized balances between `0` and the
principal, nonnegative rates, positive per-loan decrease, and a budget
covering the static minimum payments. -/
structure SimInv (w : Wallet) : Prop where
  nodup : (keysOf w.loans).Nodup
  defined : ∀ p ∈ w.loans, (p.2).amount_still_owed.isSome
  nonneg : ∀ p ∈ w.loans, 0 ≤ owedQ p.2
  le_principal : ∀ p ∈ w.loans, owedQ p.2 ≤ p.2.principal_amount
  rate_nonneg : ∀ p ∈ w.loans, 0 ≤ p.2.monthly_interest_rate
  dec_pos : ∀ p ∈ w.loans, 0 < stepDecrease p.2
  budget : sumStaticMin w.loans ≤ w.budget_ceiling

/-- Shape of the three history dictionaries after `m` recorded months:
keyed exactly by the loan ids, every sequence of length `m`. -/
def HistShape (w : Wallet) (m : Nat) : Prop :=
  w.balance_history.map Prod.fst = keysOf w.loans ∧
  w.payment_history.map Prod.fst = keysOf w.loans ∧
  w.interest_history.map Prod.fst = keysOf w.loans ∧
  (∀ p ∈ w.balance_history, p.2.length = m) ∧
  (∀ p ∈ w.payment_history, p.2.length = m) ∧
  (∀ p ∈ w.interest_history, p.2.length = m)

/-! ### Concrete inputs used by witnesses and counterexamples -/

/-- A loan with an overridden minimum payment and a small balance. -/
def loanC7 : Loan :=
  { name := "c7", principal_amount := 500, apr := 6,
    months_to_desired_completion := 120, minimum_payment_default := some 25,
    amount_still_owed := some 10 }

/-- A zero-APR loan: 1200 over 12 months. -/
def loanC8 : Loan :=
  { name := "c8", principal_amount := 1200, apr := 0,
    months_to_desired_completion := 12, minimum_payment_default := none,
    amount_still_owed := none }

/-- An in-simulation loan with a positive APR. -/
def loanC4 : Loan :=
  { name := "c4", principal_amount := 1000, apr := 12,
    months_to_desired_completion := 120, minimum_payment_default := some 20,
    amount_still_owed := some 400 }

/-- Wallet holding `loanC4`, mid-simulation. -/
def walletC4 : Wallet :=
  { loans := [(0, loanC4)], budget_ceiling := 100 }

/-- A zero-APR loan mid-simulation, for the spiral division by zero. -/
def loanC10 : Loan :=
  { name := "c10", principal_amount := 300, apr := 0,
    months_to_desired_completion := 12, minimum_payment_default := some 30,
    amount_still_owed := some 300 }

/-- Wallet containing a zero-APR loan: the spiral ranking divides by zero. -/
def walletC10 : Wallet :=
  { loans := [(0, loanC10)], budget_ceiling := 100 }

/-- Insufficient-budget scenario, first loan: minimum simulated payment
`6000/60 = 100`. -/
def loanF1 : Loan :=
  { name := "f1", principal_amount := 6000, apr := 0,
    months_to_desired_completion := 60, minimum_payment_default := none,
    amount_still_owed := some 6000 }

/-- Insufficient-budget scenario, second loan: minimum simulated payment
`12000/120 = 100`. -/
def loanF2 : Loan :=
  { name := "f2", principal_amount := 12000, apr := 0,
    months_to_desired_completion := 120, minimum_payment_default := none,
    amount_still_owed := some 12000 }

/-- Wallet whose minimum simulated payments sum to 200 against a budget
ceiling of 150 (spec §8 insufficient-budget scenario). -/
def walletInsufficient : Wallet :=
  { loans := [(1, loanF1), (2, loanF2)], budget_ceiling := 150 }

/-- Loan A of the spec §8 snowball-ordering scenario (owed 100). -/
def loanA : Loan :=
  { name := "A", principal_amount := 100, apr := 5,
    months_to_desired_completion := 12, minimum_payment_default := some 10,
    amount_still_owed := some 100 }

/-- Loan B of the spec §8 snowball-ordering scenario (owed 50). -/
def loanB : Loan :=
  { loanA with name := "B", amount_still_owed := some 50 }

/-- Loan C of the spec §8 snowball-ordering scenario (owed 200). -/
def loanC : Loan :=
  { loanA with name := "C", amount_still_owed := some 200 }

/-- The wallet A(owed=100), B(owed=50), C(owed=200) under ids 1, 2, 3. -/
def walletABC : Wallet :=
  { loans := [(1, loanA), (2, loanB), (3, loanC)], budget_ceiling := 100 }

/-- Two in-simulation loans with distinct positive APRs, for the spiral
ranking witness: ratios 600/10 = 60 and 300/15 = 20. -/
def loanS1 : Loan :=
  { name := "s1", principal_amount := 600, apr := 10,
    months_to_desired_completion := 120, minimum_payment_default := some 10,
    amount_still_owed := some 600 }

/-- Second spiral-witness loan. -/
def loanS2 : Loan :=
  { name := "s2", principal_amount := 300, apr := 15,
    months_to_desired_completion := 120, minimum_payment_default := some 10,
    amount_still_owed := some 300 }

/-- Wallet for the spiral-ranking witness. -/
def walletS : Wallet :=
  { loans := [(1, loanS1), (2, loanS2)], budget_ceiling := 100 }

/-- Wallet for the budget-contract witness: minimum simulated payments
50 + 50 = 100 against budget 120. -/
def walletC1 : Wallet :=
  { loans :=
      [(1, { name := "a", principal_amount := 500, apr := 0,
             months_to_desired_completion := 120,
             minimum_payment_default := some 50,
             amount_still_owed := some 500 }),
       (2, { name := "b", principal_amount := 1000, apr := 0,
             months_to_desired_completion := 120,
             minimum_payment_default := some 50,
             amount_still_owed := some 1000 })],
    budget_ceiling := 120 }

/-- Termination witness: one zero-APR loan, 1200 over 12 months, minimum
payment 100, budget 150. -/
def walletC5 : Wallet :=
  { loans := [(0, loanC8)], budget_ceiling := 150 }

/-- Termination counterexample loan: principal 10000 at 24% APR (monthly
rate 1/50) with the minimum payment overridden to 10. -/
def loanX (q : ℚ) : Loan :=
  { name := "x", principal_amount := 10000, apr := 24,
    months_to_desired_completion := 120, minimum_payment_default := some 10,
    amount_still_owed := some q }

/-- Termination counterexample wallet: the 20/month budget exceeds the
10/month minimum payment, but monthly interest on the balance (at least
200) always outruns the budget, so the balance grows forever. -/
def walletX : Wallet :=
  { loans := [(0, { loanX 0 with amount_still_owed := none })],
    budget_ceiling := 20 }

/-- History-length witness: one loan paid off in exactly two months. -/
def loanH : Loan :=
  { name := "h", principal_amount := 200, apr := 0,
    months_to_desired_completion := 2, minimum_payment_default := some 100,
    amount_still_owed := none }

/-- Wallet for the history-length witness. -/
def walletH : Wallet :=
  { loans := [(0, loanH)], budget_ceiling := 100 }

/-! ### Dictionary lookup lemmas -/

theorem lookup_eq_some_of_mem {loans : List (LoanId × Loan)}
    (hnd : (keysOf loans).Nodup) {id : LoanId} {l : Loan}
    (hmem : (id, l) ∈ loans) : lookupLoan loans id = some l := by
  induction loans with
  | nil => simp at hmem
  | cons q rest ih =>
    rcases List.nodup_cons.mp hnd with ⟨hq, hrest⟩
    rcases List.mem_cons.mp hmem with heq | hmem'
    · cases heq
      simp [lookupLoan, List.lookup]
    · have hne : id ≠ q.1 := fun heq =>
        hq (heq ▸ List.mem_map.mpr ⟨(id, l), hmem', rfl⟩)
      have hb : (id == q.1) = false := beq_eq_false_iff_ne.mpr hne
      simpa [lookupLoan, List.lookup, hb] using ih hrest hmem'

theorem exists_mem_of_key_mem {loans : List (LoanId × Loan)} {id : LoanId}
    (h : id ∈ keysOf loans) : ∃ l, (id, l) ∈ loans := by
  rcases List.mem_map.mp h with ⟨p, hp, rfl⟩
  exact ⟨p.2, hp⟩

/-- Mapping a key-preserving function over the loan dictionary preserves the
key list. -/
theorem keysOf_map (loans : List (LoanId × Loan)) (F : LoanId × Loan → Loan) :
    keysOf (loans.map (fun p => (p.1, F p))) = keysOf loans := by
  simp [keysOf, List.map_map, Function.comp_def]

theorem lookup_map_loans {loans : List (LoanId × Loan)}
    (F : LoanId × Loan → Loan) (hnd : (keysOf loans).Nodup) {id : LoanId}
    {l : Loan} (hmem : (id, l) ∈ loans) :
    lookupLoan (loans.map (fun p => (p.1, F p))) id = some (F (id, l)) := by
  have hnd' : (keysOf (loans.map (fun p => (p.1, F p)))).Nodup := by
    rw [keysOf_map]; exact hnd
  exact lookup_eq_some_of_mem hnd'
    (List.mem_map.mpr ⟨(id, l), hmem, rfl⟩)

/-! ### Sorting lemmas -/

theorem insertPair_perm (p : LoanId × ℚ) (l : List (LoanId × ℚ)) :
    (insertPair p l).Perm (p :: l) := by
  induction l with
  | nil => simp [insertPair]
  | cons q rest ih =>
    by_cases h : p.2 ≤ q.2
    · simp [insertPair, h]
    · simp only [insertPair, if_neg h]
      exact (ih.cons q).trans (List.Perm.swap p q rest)

theorem sortPairs_perm (l : List (LoanId × ℚ)) : (sortPairs l).Perm l := by
  induction l with
  | nil => simp [sortPairs]
  | cons p rest ih => exact (insertPair_perm p (sortPairs rest)).trans (ih.cons p)

theorem insertPair_pairwise {l : List (LoanId × ℚ)}
    (h : l.Pairwise (fun a b => a.2 ≤ b.2)) (p : LoanId × ℚ) :
    (insertPair p l).Pairwise (fun a b => a.2 ≤ b.2) := by
  induction l with
  | nil => simp [insertPair]
  | cons q rest ih =>
    rcases List.pairwise_cons.mp h with ⟨hq, hrest⟩
    by_cases hle : p.2 ≤ q.2
    · rw [insertPair, if_pos hle]
      refine List.pairwise_cons.mpr ⟨?_, h⟩
      intro b hb
      rcases List.mem_cons.mp hb with rfl | hb'
      · exact hle
      · exact hle.trans (hq b hb')
    · rw [insertPair, if_neg hle]
      refine List.pairwise_cons.mpr ⟨?_, ih hrest⟩
      intro b hb
      rcases List.mem_cons.mp ((insertPair_perm p rest).mem_iff.mp hb) with rfl | hb'
      · exact le_of_not_le hle
      · exact hq b hb'

theorem sortPairs_pairwise (l : List (LoanId × ℚ)) :
    (sortPairs l).Pairwise (fun a b => a.2 ≤ b.2) := by
  induction l with
  | nil => simp [sortPairs]
  | cons p rest ih => exact insertPair_pairwise ih p

/-! ### Claim C7: the minimum simulated payment -/

/-- Claim C7: for every loan (with a nonnegative minimum payment, as any
valid loan has), `minimum_payment_simulation` equals
`min(minimum_payment, amount_still_owed)`, is `0` when the balance is
undefined or zero, and never exceeds the remaining balance. -/
theorem minimum_payment_simulation_spec (l : Loan)
    (hm : 0 ≤ l.minimum_payment) :
    (∀ a : ℚ, l.amount_still_owed = some a →
      l.minimum_payment_simulation = min l.minimum_payment a) ∧
    (l.amount_still_owed = none → l.minimum_payment_simulation = 0) ∧
    (l.amount_still_owed = some 0 → l.minimum_payment_simulation = 0) ∧
    (∀ a : ℚ, l.amount_still_owed = some a →
      l.minimum_payment_simulation ≤ a) := by
  have hmin : ∀ a : ℚ, l.amount_still_owed = some a →
      l.minimum_payment_simulation = min l.minimum_payment a := by
    intro a ha
    simp only [Loan.minimum_payment_simulation, ha]
    rcases lt_or_le a l.minimum_payment with h' | h'
    · rw [if_pos h', min_eq_right h'.le]
    · rw [if_neg (not_lt.mpr h'), min_eq_left h']
  refine ⟨hmin, ?_, ?_, ?_⟩
  · intro ha
    simp [Loan.minimum_payment_simulation, ha]
  · intro ha
    rw [hmin 0 ha, min_eq_right hm]
  · intro a ha
    rw [hmin a ha]
    exact min_le_right _ _

/-- Claim C7 witness: instantiated at `loanC7` (minimum payment 25,
balance 10): the simulated minimum is `min 25 10 = 10`. -/
theorem minimum_payment_simulation_spec_witness :
    (0 : ℚ) ≤ loanC7.minimum_payment ∧
    (∀ a : ℚ, loanC7.amount_still_owed = some a →
      loanC7.minimum_payment_simulation = min loanC7.minimum_payment a) ∧
    (loanC7.amount_still_owed = none →
      loanC7.minimum_payment_simulation = 0) ∧
    (loanC7.amount_still_owed = some 0 →
      loanC7.minimum_payment_simulation = 0) ∧
    (∀ a : ℚ, loanC7.amount_still_owed = some a →
      loanC7.minimum_payment_simulation ≤ a) :=
  have hm : (0 : ℚ) ≤ loanC7.minimum_payment := by
    norm_num [loanC7, Loan.minimum_payment]
  ⟨hm, minimum_payment_simulation_spec loanC7 hm⟩

/-! ### Claim C8: zero-rate amortization -/

/-- Claim C8: for every loan with `apr = 0`,
`compute_minimum_required_payment` returns exactly
`principal_amount / months_to_desired_completion`. -/
theorem compute_minimum_required_payment_zero_apr (l : Loan)
    (h : l.apr = 0) :
    l.compute_minimum_required_payment
      = l.principal_amount / (l.months_to_desired_completion : ℚ) := by
  have hr : l.monthly_interest_rate = 0 := by
    simp [Loan.monthly_interest_rate, Loan.yearly_interest_rate, h]
  rw [Loan.compute_minimum_required_payment, if_pos hr]

/-- Claim C8 witness: `loanC8` (1200 over 12 months at zero APR) has
minimum required payment `1200 / 12 = 100`. -/
theorem compute_minimum_required_payment_zero_apr_witness :
    loanC8.apr = 0 ∧
    loanC8.compute_minimum_required_payment
      = loanC8.principal_amount / (loanC8.months_to_desired_completion : ℚ) :=
  ⟨by norm_num [loanC8],
   compute_minimum_required_payment_zero_apr loanC8 (by norm_num [loanC8])⟩

/-! ### Claim C4: interest accrues on the post-payment balance -/

/-- Claim C4: in a simulated month, the interest recorded for a loan and
added back to its balance is exactly `(post-payment balance) * monthly_rate`
(never `principal * monthly_rate`), and the per-cycle simulated interest is
`0` for an undefined or zero balance. -/
theorem interest_accrues_on_post_payment_balance (w : Wallet)
    (payments : LoanId → ℚ) (id : LoanId) (l : Loan)
    (hnd : (keysOf w.loans).Nodup) (hmem : (id, l) ∈ w.loans)
    (_hdef : l.amount_still_owed.isSome) :
    cycleInterestOf (applyPayments w payments).loans id
      = (owedQ l - payments id) * l.monthly_interest_rate ∧
    owedOfL (accrueInterest (applyPayments w payments)).loans id
      = (owedQ l - payments id)
        + (owedQ l - payments id) * l.monthly_interest_rate ∧
    (accrueInterest (applyPayments w payments)).interest_history
      = appendHistory (applyPayments w payments).interest_history
          (cycleInterestOf (applyPayments w payments).loans) ∧
    (∀ lq : Loan, lq.amount_still_owed = none →
      lq.compute_single_cycle_earned_interest_simulation = 0) ∧
    (∀ lq : Loan, lq.amount_still_owed = some 0 →
      lq.compute_single_cycle_earned_interest_simulation = 0) := by
  have hl1 : lookupLoan (applyPayments w payments).loans id
      = some { l with amount_still_owed := some (owedQ l - payments id) } :=
    lookup_map_loans
      (fun p => { p.2 with amount_still_owed := some (owedQ p.2 - payments p.1) })
      hnd hmem
  have hnd1 : (keysOf (applyPayments w payments).loans).Nodup := by
    have := keysOf_map w.loans
      (fun p => { p.2 with amount_still_owed := some (owedQ p.2 - payments p.1) })
    simpa [applyPayments, this] using hnd
  have hmem1 : (id, { l with amount_still_owed := some (owedQ l - payments id) })
      ∈ (applyPayments w payments).loans :=
    List.mem_map.mpr ⟨(id, l), hmem, rfl⟩
  have hloans2 : (accrueInterest (applyPayments w payments)).loans
      = (applyPayments w payments).loans.map (fun p =>
        (p.1, { p.2 with amount_still_owed := some (owedQ p.2 + p.2.compute_single_cycle_earned_interest_simulation) })) :=
    rfl
  have hl2 := lookup_map_loans
    (fun p => { p.2 with amount_still_owed := some (owedQ p.2 + p.2.compute_single_cycle_earned_interest_simulation) })
    hnd1 hmem1
  refine ⟨?_, ?_, rfl, ?_, ?_⟩
  · simp [cycleInterestOf, hl1,
      Loan.compute_single_cycle_earned_interest_simulation, owedQ,
      Loan.monthly_interest_amp, Loan.monthly_interest_rate,
      Loan.yearly_interest_rate]
  · simp only [owedOfL, hloans2, hl2]
    simp only [owedQ, Loan.compute_single_cycle_earned_interest_simulation,
      Loan.monthly_interest_amp, Loan.monthly_interest_rate,
      Loan.yearly_interest_rate, Option.getD_some]
    ring
  · intro lq hq
    simp [Loan.compute_single_cycle_earned_interest_simulation, hq]
  · intro lq hq
    simp [Loan.compute_single_cycle_earned_interest_simulation, hq]

/-- Claim C4 witness: `loanC4` (balance 400, monthly rate 1/100) paid 30
accrues interest `(400 - 30)/100 = 3.7` on the post-payment balance. -/
theorem interest_accrues_on_post_payment_balance_witness :
    cycleInterestOf (applyPayments walletC4 (fun _ => 30)).loans 0
      = (owedQ loanC4 - 30) * loanC4.monthly_interest_rate ∧
    owedOfL (accrueInterest (applyPayments walletC4 (fun _ => 30))).loans 0
      = (owedQ loanC4 - 30)
        + (owedQ loanC4 - 30) * loanC4.monthly_interest_rate ∧
    (accrueInterest (applyPayments walletC4 (fun _ => 30))).interest_history
      = appendHistory (applyPayments walletC4 (fun _ => 30)).interest_history
          (cycleInterestOf (applyPayments walletC4 (fun _ => 30)).loans) ∧
    (∀ lq : Loan, lq.amount_still_owed = none →
      lq.compute_single_cycle_earned_interest_simulation = 0) ∧
    (∀ lq : Loan, lq.amount_still_owed = some 0 →
      lq.compute_single_cycle_earned_interest_simulation = 0) :=
  interest_accrues_on_post_payment_balance walletC4 (fun _ => 30) 0 loanC4
    (by decide) (by decide) (by decide)

/-! ### Claim C10: the spiral ranking divides by `apr` -/

theorem spiralRatios_eq_none {loans : List (LoanId × Loan)}
    (h : ∃ p ∈ loans, p.2.apr = 0) : spiralRatios loans = none := by
  induction loans with
  | nil => simp at h
  | cons q rest ih =>
    rcases h with ⟨p, hp, hz⟩
    rcases List.mem_cons.mp hp with rfl | hp'
    · simp [spiralRatios, hz]
    · by_cases hq : q.2.apr = 0
      · simp [spiralRatios, hq]
      · simp [spiralRatios, hq, ih ⟨p, hp', hz⟩]

/-- Claim C10: any wallet containing a loan with `apr = 0` makes the spiral
ranking (and with it the spiral installment, and any spiral plan that
enters its loop) hit the division-by-zero error branch, so `apr > 0` for
every loan is a necessary precondition of the spiral strategy. -/
theorem spiral_strategy_requires_positive_apr (w : Wallet)
    (h : ∃ p ∈ w.loans, p.2.apr = 0) :
    spiralPriorityIds w.loans = none ∧
    w.get_debt_spiral_payment_installment = none ∧
    (0 < (initSimulation w).total_still_owed →
      ∀ fuel, w.generate_debt_spiral_plan (fuel + 1) = Except.error ()) := by
  have hids : spiralPriorityIds w.loans = none := by
    rw [spiralPriorityIds, spiralRatios_eq_none h]
    rfl
  have hinst : w.get_debt_spiral_payment_installment = none := by
    rw [Wallet.get_debt_spiral_payment_installment, hids]
    rfl
  refine ⟨hids, hinst, ?_⟩
  intro hpos fuel
  have hinit : ∃ p ∈ (initSimulation w).loans, p.2.apr = 0 := by
    rcases h with ⟨p, hp, hz⟩
    exact ⟨(p.1, { p.2 with amount_still_owed := some p.2.principal_amount }),
      List.mem_map.mpr ⟨p, hp, rfl⟩, hz⟩
  have hrb : (recordBalances (initSimulation w)).loans
      = (initSimulation w).loans := rfl
  have hinst' : (recordBalances (initSimulation w)).get_debt_spiral_payment_installment
      = none := by
    rw [Wallet.get_debt_spiral_payment_installment, spiralPriorityIds, hrb,
      spiralRatios_eq_none hinit]
    rfl
  have hstep : spiralMonthStep (initSimulation w) = none := by
    rw [spiralMonthStep, hinst']
    rfl
  rw [Wallet.generate_debt_spiral_plan, spiralLoop, if_pos hpos, hstep]
  rfl

/-- Claim C10 witness: `walletC10` holds a zero-APR loan with a positive
balance, so the spiral ranking, installment, and plan all fail. -/
theorem spiral_strategy_requires_positive_apr_witness :
    spiralPriorityIds walletC10.loans = none ∧
    walletC10.get_debt_spiral_payment_installment = none ∧
    (0 < (initSimulation walletC10).total_still_owed →
      ∀ fuel, walletC10.generate_debt_spiral_plan (fuel + 1)
        = Except.error ()) :=
  spiral_strategy_requires_positive_apr walletC10
    ⟨(0, loanC10), by decide, by decide⟩

/-! ### Claims C9 and C3: priority ranking order -/

/-- Mapping loans to key-tagged values preserves the key list. -/
theorem map_fst_map_pair {β : Type} (loans : List (LoanId × Loan))
    (f : LoanId × Loan → β) :
    (loans.map (fun p => (p.1, f p))).map Prod.fst = keysOf loans := by
  simp [keysOf, List.map_map, Function.comp_def]

/-- The pairs built over a `Nodup` dictionary carry the value of their own
key. -/
theorem snd_eq_of_mem_map_pair {w : Wallet} (hnd : (keysOf w.loans).Nodup)
    {f : Loan → ℚ} {g : LoanId → ℚ}
    (hfg : ∀ id l, lookupLoan w.loans id = some l → g id = f l)
    {x : LoanId × ℚ} (hx : x ∈ w.loans.map (fun p => (p.1, f p.2))) :
    x.2 = g x.1 := by
  rcases List.mem_map.mp hx with ⟨p, hp, rfl⟩
  obtain ⟨pid, pl⟩ := p
  exact (hfg pid pl (lookup_eq_some_of_mem hnd hp)).symm

/-- Sortedness of a priority ranking, transported from the sorted pairs to
the projected id list. -/
theorem priority_pairwise_of_pairs {w : Wallet} (hnd : (keysOf w.loans).Nodup)
    {f : Loan → ℚ} {g : LoanId → ℚ}
    (hfg : ∀ id l, lookupLoan w.loans id = some l → g id = f l) :
    ((sortPairs (w.loans.map (fun p => (p.1, f p.2)))).map Prod.fst).Pairwise
      (fun i j => g i ≤ g j) := by
  apply List.pairwise_map.mpr
  apply (sortPairs_pairwise (w.loans.map (fun p => (p.1, f p.2)))).imp_of_mem
  intro a b ha hb hab
  have ha' := snd_eq_of_mem_map_pair hnd hfg
    ((sortPairs_perm _).subset ha)
  have hb' := snd_eq_of_mem_map_pair hnd hfg
    ((sortPairs_perm _).subset hb)
  rw [ha', hb'] at hab
  exact hab

/-- A ranking built by sorting key-tagged pairs is a permutation of the
dictionary's key list. -/
theorem priority_perm_of_pairs (w : Wallet) (f : Loan → ℚ) :
    ((sortPairs (w.loans.map (fun p => (p.1, f p.2)))).map Prod.fst).Perm
      (keysOf w.loans) := by
  have h := (sortPairs_perm (w.loans.map (fun p => (p.1, f p.2)))).map Prod.fst
  rwa [map_fst_map_pair w.loans (fun p => f p.2)] at h

/-- Claim C9: the snowball ranking lists the loan ids by ascending
`amount_still_owed` (a permutation of the key set, smallest balance
first); in particular for A(owed=100), B(owed=50), C(owed=200) under ids
1, 2, 3 it returns `[2, 1, 3]`, i.e. `[B, A, C]`. -/
theorem snowball_priority_ascending_balance :
    (∀ w : Wallet, (keysOf w.loans).Nodup →
      (w.get_debt_snowball_loan_priority_ids).Pairwise
        (fun i j => owedOfL w.loans i ≤ owedOfL w.loans j) ∧
      (w.get_debt_snowball_loan_priority_ids).Perm (keysOf w.loans)) ∧
    walletABC.get_debt_snowball_loan_priority_ids = [2, 1, 3] := by
  constructor
  · intro w hnd
    have hfg : ∀ id l, lookupLoan w.loans id = some l →
        owedOfL w.loans id = owedQ l := by
      intro id l hl
      rw [owedOfL, hl]
    exact ⟨priority_pairwise_of_pairs hnd hfg, priority_perm_of_pairs w owedQ⟩
  · norm_num [Wallet.get_debt_snowball_loan_priority_ids, snowballPriorityIds,
      sortPairs, insertPair, walletABC, loanA, loanB, loanC, owedQ]

/-- Claim C9 witness: the general ordering statement instantiated at the
A/B/C wallet. -/
theorem snowball_priority_ascending_balance_witness :
    (walletABC.get_debt_snowball_loan_priority_ids).Pairwise
      (fun i j => owedOfL walletABC.loans i ≤ owedOfL walletABC.loans j) ∧
    (walletABC.get_debt_snowball_loan_priority_ids).Perm
      (keysOf walletABC.loans) :=
  snowball_priority_ascending_balance.1 walletABC (by decide)

theorem spiralRatios_eq_some {loans : List (LoanId × Loan)}
    (h : ∀ p ∈ loans, p.2.apr ≠ 0) :
    spiralRatios loans
      = some (loans.map (fun p => (p.1, owedQ p.2 / p.2.apr))) := by
  induction loans with
  | nil => simp [spiralRatios]
  | cons q rest ih =>
    have hq : q.2.apr ≠ 0 := h q (List.mem_cons_self q rest)
    have ih' := ih (fun p hp => h p (List.mem_cons_of_mem q hp))
    simp [spiralRatios, hq, ih']

/-- Claim C3: when every loan has `apr > 0`, the spiral ranking succeeds
and returns the loan ids sorted by ascending `amount_still_owed / apr`
(smallest ratio first, no reversal), a permutation of the key set. -/
theorem spiral_priority_ascending_ratio (w : Wallet)
    (hnd : (keysOf w.loans).Nodup) (hapr : ∀ p ∈ w.loans, 0 < p.2.apr) :
    ∃ ids, w.get_debt_spiral_loan_priority_ids = some ids ∧
      ids.Pairwise (fun i j =>
        owedOfL w.loans i / aprOfL w.loans i
          ≤ owedOfL w.loans j / aprOfL w.loans j) ∧
      ids.Perm (keysOf w.loans) := by
  have hne : ∀ p ∈ w.loans, p.2.apr ≠ 0 := fun p hp => (hapr p hp).ne'
  refine ⟨(sortPairs (w.loans.map (fun p => (p.1, owedQ p.2 / p.2.apr)))).map
    Prod.fst, ?_, ?_, ?_⟩
  · rw [Wallet.get_debt_spiral_loan_priority_ids, spiralPriorityIds,
      spiralRatios_eq_some hne]
    rfl
  · have hfg : ∀ id l, lookupLoan w.loans id = some l →
        owedOfL w.loans id / aprOfL w.loans id = owedQ l / l.apr := by
      intro id l hl
      rw [owedOfL, aprOfL, hl]
    exact priority_pairwise_of_pairs hnd hfg
  · exact priority_perm_of_pairs w (fun l => owedQ l / l.apr)

/-- Claim C3 witness: instantiated at the two-loan wallet with ratios
600/10 = 60 and 300/15 = 20. -/
theorem spiral_priority_ascending_ratio_witness :
    ∃ ids, walletS.get_debt_spiral_loan_priority_ids = some ids ∧
      ids.Pairwise (fun i j =>
        owedOfL walletS.loans i / aprOfL walletS.loans i
          ≤ owedOfL walletS.loans j / aprOfL walletS.loans j) ∧
      ids.Perm (keysOf walletS.loans) :=
  spiral_priority_ascending_ratio walletS (by decide)
    (by
      intro p hp
      rcases List.mem_cons.mp hp with rfl | hp'
      · norm_num [loanS1]
      · rcases List.mem_cons.mp hp' with rfl | hp''
        · norm_num [loanS2]
        · simp at hp'')

/-! ### Claim C2: insufficient budget is NOT detected -/

/-- Claim C2 (failing input): with minimum simulated payments summing to
200 against a budget ceiling of 150, the snowball allocator raises no
error and reports no failure; it silently adds the negative
`amount_left = -50` to the first-priority loan, paying it 50 — below its
own minimum payment of 100 — and returns a normal payment mapping summing
to the budget ceiling. -/
theorem insufficient_budget_proceeds_unchecked :
    sumMinSimL walletInsufficient.loans = 200 ∧
    walletInsufficient.budget_ceiling = 150 ∧
    loanF1.minimum_payment_simulation = 100 ∧
    walletInsufficient.get_debt_snowball_payment_installment 1 = 50 ∧
    walletInsufficient.get_debt_snowball_payment_installment 2 = 100 := by
  have b21 : ((2 : LoanId) == 1) = false := by decide
  have b12 : ((1 : LoanId) == 2) = false := by decide
  norm_num [walletInsufficient, loanF1, loanF2, sumMinSimL,
    Loan.minimum_payment_simulation, Loan.minimum_payment,
    Loan.compute_minimum_required_payment, Loan.monthly_interest_rate,
    Loan.yearly_interest_rate, Loan.monthly_interest_amp,
    Wallet.get_debt_snowball_payment_installment, paymentInstallment,
    allocateExtra, minPaymentsL, snowballPriorityIds, sortPairs, insertPair,
    owedOfL, owedQ, lookupLoan, List.lookup, updateFn, b21, b12]

/-! ### Claim C1: the allocator's budget contract -/

/-- The updated entry of a payment dictionary. -/
theorem updateFn_same (f : LoanId → ℚ) (id : LoanId) (v : ℚ) :
    updateFn f id v id = v := by
  simp [updateFn]

/-- Entries other than the updated one are untouched. -/
theorem updateFn_other (f : LoanId → ℚ) {id j : LoanId} (v : ℚ)
    (h : j ≠ id) : updateFn f id v j = f j := by
  simp [updateFn, h]

/-- Summing over a `Nodup` key list after a single dictionary update. -/
theorem map_sum_update {ks : List LoanId} (hnd : ks.Nodup) {id : LoanId}
    (hid : id ∈ ks) (f : LoanId → ℚ) (v : ℚ) :
    (ks.map (updateFn f id v)).sum = (ks.map f).sum - f id + v := by
  induction ks with
  | nil => simp at hid
  | cons k rest ih =>
    rcases List.nodup_cons.mp hnd with ⟨hk, hrest⟩
    rcases List.mem_cons.mp hid with heq | hid'
    · subst heq
      have hrest_eq : rest.map (updateFn f id v) = rest.map f := by
        apply List.map_congr_left
        intro j hj
        exact updateFn_other f v (fun h => hk (h ▸ hj))
      simp only [List.map_cons, List.sum_cons, hrest_eq, updateFn_same]
      ring
    · have hkne : k ≠ id := fun h => hk (h ▸ hid')
      simp only [List.map_cons, List.sum_cons, updateFn_other f v hkne,
        ih hrest hid']
      ring

/-- The central invariants of the allocation walk: payments only grow, ids
off the priority list are untouched, no payment exceeds its loan's
balance, the total grows by at most `amount_left`, and by exactly
`amount_left` whenever some visited loan remains underfunded. -/
theorem allocateExtra_spec (loans : List (LoanId × Loan)) :
    ∀ (prio : List LoanId) (payments : LoanId → ℚ) (aleft : ℚ),
    (keysOf loans).Nodup → prio.Nodup →
    (∀ id ∈ prio, id ∈ keysOf loans) → 0 ≤ aleft →
    (∀ id ∈ keysOf loans, payments id ≤ owedOfL loans id) →
    (∀ id, payments id ≤ allocateExtra loans prio payments aleft id) ∧
    (∀ id, id ∉ prio →
      allocateExtra loans prio payments aleft id = payments id) ∧
    (∀ id ∈ keysOf loans,
      allocateExtra loans prio payments aleft id ≤ owedOfL loans id) ∧
    ((keysOf loans).map (allocateExtra loans prio payments aleft)).sum
      ≤ ((keysOf loans).map payments).sum + aleft ∧
    (∀ id ∈ keysOf loans, id ∈ prio →
      allocateExtra loans prio payments aleft id < owedOfL loans id →
      ((keysOf loans).map (allocateExtra loans prio payments aleft)).sum
        = ((keysOf loans).map payments).sum + aleft) := by
  intro prio
  induction prio with
  | nil =>
    intro payments aleft hnd hpn hsub hal hpay
    refine ⟨fun id => le_refl _, fun id _ => rfl, hpay, by simp [allocateExtra]; linarith, ?_⟩
    intro id _ hid _
    simp at hid
  | cons id0 rest ih =>
    intro payments aleft hnd hpn hsub hal hpay
    have hid0 : id0 ∈ keysOf loans := hsub id0 (List.mem_cons_self id0 rest)
    have hid0r : id0 ∉ rest := (List.nodup_cons.mp hpn).1
    have hpn' : rest.Nodup := (List.nodup_cons.mp hpn).2
    have hsub' : ∀ id ∈ rest, id ∈ keysOf loans := fun id h =>
      hsub id (List.mem_cons_of_mem id0 h)
    by_cases h0 : owedOfL loans id0 - payments id0 = 0
    · -- the head loan is already fully funded: skip it
      have hres : allocateExtra loans (id0 :: rest) payments aleft
          = allocateExtra loans rest payments aleft := by
        rw [allocateExtra, if_pos h0]
      obtain ⟨i1, i2, i3, i4, i5⟩ := ih payments aleft hnd hpn' hsub' hal hpay
      rw [hres]
      refine ⟨i1, fun id hid => i2 id (fun h => hid (List.mem_cons_of_mem id0 h)),
        i3, i4, ?_⟩
      intro id hidk hidp hlt
      rcases List.mem_cons.mp hidp with rfl | hidr
      · exfalso
        rw [i2 id hid0r, ← sub_eq_zero.mp h0] at hlt
        exact lt_irrefl _ hlt
      · exact i5 id hidk hidr hlt
    · by_cases h1 : aleft ≤ owedOfL loans id0 - payments id0
      · -- the budget is exhausted on the head loan: break
        have hres : allocateExtra loans (id0 :: rest) payments aleft
            = updateFn payments id0 (payments id0 + aleft) := by
          rw [allocateExtra, if_neg h0, if_pos h1]
        have hsum : ((keysOf loans).map
            (updateFn payments id0 (payments id0 + aleft))).sum
            = ((keysOf loans).map payments).sum + aleft := by
          rw [map_sum_update hnd hid0]
          ring
        rw [hres]
        refine ⟨?_, ?_, ?_, le_of_eq hsum, fun id _ _ _ => hsum⟩
        · intro id
          rcases eq_or_ne id id0 with rfl | hne
          · rw [updateFn_same]
            linarith
          · rw [updateFn_other _ _ hne]
        · intro id hid
          have hne : id ≠ id0 := fun h => hid (h ▸ List.mem_cons_self id0 rest)
          rw [updateFn_other _ _ hne]
        · intro id hidk
          rcases eq_or_ne id id0 with rfl | hne
          · rw [updateFn_same]
            linarith
          · rw [updateFn_other _ _ hne]
            exact hpay id hidk
      · -- the head loan is fully paid off: continue with the remainder
        have hN : 0 ≤ owedOfL loans id0 - payments id0 := by
          have := hpay id0 hid0
          linarith
        have hres : allocateExtra loans (id0 :: rest) payments aleft
            = allocateExtra loans rest
              (updateFn payments id0
                (payments id0 + (owedOfL loans id0 - payments id0)))
              (aleft - (owedOfL loans id0 - payments id0)) := by
          rw [allocateExtra, if_neg h0, if_neg h1]
        have hal' : 0 ≤ aleft - (owedOfL loans id0 - payments id0) := by
          push_neg at h1
          linarith
        have hpay' : ∀ id ∈ keysOf loans,
            updateFn payments id0
              (payments id0 + (owedOfL loans id0 - payments id0)) id
              ≤ owedOfL loans id := by
          intro id hidk
          rcases eq_or_ne id id0 with rfl | hne
          · rw [updateFn_same]
            linarith
          · rw [updateFn_other _ _ hne]
            exact hpay id hidk
        obtain ⟨i1, i2, i3, i4, i5⟩ := ih
          (updateFn payments id0
            (payments id0 + (owedOfL loans id0 - payments id0)))
          (aleft - (owedOfL loans id0 - payments id0))
          hnd hpn' hsub' hal' hpay'
        have hsum' : ((keysOf loans).map
            (updateFn payments id0
              (payments id0 + (owedOfL loans id0 - payments id0)))).sum
            = ((keysOf loans).map payments).sum
              + (owedOfL loans id0 - payments id0) := by
          rw [map_sum_update hnd hid0]
          ring
        rw [hres]
        refine ⟨?_, ?_, i3, ?_, ?_⟩
        · intro id
          refine le_trans ?_ (i1 id)
          rcases eq_or_ne id id0 with rfl | hne
          · rw [updateFn_same]
            linarith
          · rw [updateFn_other _ _ hne]
        · intro id hid
          have hne : id ≠ id0 := fun h => hid (h ▸ List.mem_cons_self id0 rest)
          rw [i2 id (fun h => hid (List.mem_cons_of_mem id0 h))]
          exact updateFn_other _ _ hne
        · calc ((keysOf loans).map (allocateExtra loans rest _ _)).sum
              ≤ _ := i4
            _ = ((keysOf loans).map payments).sum + aleft := by
              rw [hsum']
              ring
        · intro id hidk hidp hlt
          rcases List.mem_cons.mp hidp with rfl | hidr
          · exfalso
            rw [i2 id hid0r, updateFn_same] at hlt
            linarith
          · rw [i5 id hidk hidr hlt, hsum']
            ring

/-- Each loan's minimum simulated payment never exceeds its balance. -/
theorem minimum_payment_simulation_le_owedQ (l : Loan) :
    l.minimum_payment_simulation ≤ owedQ l := by
  cases h : l.amount_still_owed with
  | none => simp [Loan.minimum_payment_simulation, owedQ, h]
  | some a =>
    simp only [Loan.minimum_payment_simulation, owedQ, h, Option.getD_some]
    split
    · exact le_refl a
    · exact not_lt.mp (by assumption)

theorem minPaymentsL_le_owed (loans : List (LoanId × Loan))
    (hnd : (keysOf loans).Nodup) :
    ∀ id ∈ keysOf loans, minPaymentsL loans id ≤ owedOfL loans id := by
  intro id hid
  rcases exists_mem_of_key_mem hid with ⟨l, hl⟩
  rw [minPaymentsL, owedOfL, lookup_eq_some_of_mem hnd hl]
  exact minimum_payment_simulation_le_owedQ l

/-- Summing the minimum payment dictionary over the keys is
`np.sum(payments.values())`. -/
theorem sum_minPayments (loans : List (LoanId × Loan))
    (hnd : (keysOf loans).Nodup) :
    ((keysOf loans).map (minPaymentsL loans)).sum = sumMinSimL loans := by
  rw [sumMinSimL, keysOf, List.map_map]
  congr 1
  apply List.map_congr_left
  intro p hp
  obtain ⟨pid, pl⟩ := p
  simp [Function.comp_def, minPaymentsL, lookup_eq_some_of_mem hnd hp]

/-- The §4.3 budget contract holds for any installment computed from a
priority order that enumerates the loan keys. -/
theorem paymentInstallment_ok (w : Wallet) (prio : List LoanId)
    (hnd : (keysOf w.loans).Nodup) (hperm : prio.Perm (keysOf w.loans))
    (hB : sumMinSimL w.loans ≤ w.budget_ceiling) :
    installmentOk w (paymentInstallment w.loans w.budget_ceiling prio) := by
  have hpn : prio.Nodup := hperm.nodup_iff.mpr hnd
  have hsub : ∀ id ∈ prio, id ∈ keysOf w.loans := fun id h => hperm.subset h
  have hal : 0 ≤ w.budget_ceiling - sumMinSimL w.loans := by linarith
  obtain ⟨h1, h2, h3, h4, h5⟩ := allocateExtra_spec w.loans prio
    (minPaymentsL w.loans) (w.budget_ceiling - sumMinSimL w.loans)
    hnd hpn hsub hal (minPaymentsL_le_owed w.loans hnd)
  have hsum := sum_minPayments w.loans hnd
  rw [installmentOk, paymentInstallment]
  refine ⟨?_, ?_, h3⟩
  · calc ((keysOf w.loans).map _).sum
        ≤ ((keysOf w.loans).map (minPaymentsL w.loans)).sum
          + (w.budget_ceiling - sumMinSimL w.loans) := h4
      _ = w.budget_ceiling := by rw [hsum]; ring
  · rintro ⟨id, hid, hlt⟩
    rw [h5 id hid (hperm.mem_iff.mpr hid) hlt, hsum]
    ring

theorem spiralRatios_map_fst {loans : List (LoanId × Loan)}
    {rs : List (LoanId × ℚ)} (h : spiralRatios loans = some rs) :
    rs.map Prod.fst = keysOf loans := by
  induction loans generalizing rs with
  | nil =>
    simp only [spiralRatios, Option.some_inj] at h
    subst h
    simp [keysOf]
  | cons q rest ih =>
    by_cases hq : q.2.apr = 0
    · simp [spiralRatios, hq] at h
    · simp only [spiralRatios, if_neg hq, Option.map_eq_some'] at h
      rcases h with ⟨rs', hrs', rfl⟩
      simp [keysOf, ih hrs']

/-- A successful spiral ranking is a permutation of the loan keys. -/
theorem spiral_prio_perm {w : Wallet} {ids : List LoanId}
    (h : spiralPriorityIds w.loans = some ids) :
    ids.Perm (keysOf w.loans) := by
  rw [spiralPriorityIds, Option.map_eq_some'] at h
  rcases h with ⟨rs, hrs, rfl⟩
  have hp := (sortPairs_perm rs).map Prod.fst
  rwa [spiralRatios_map_fst hrs] at hp

/-- Claim C1: whenever the budget ceiling covers the loans' minimum
simulated payments, each strategy's monthly installment pays out at most
the budget ceiling, pays out exactly the budget ceiling whenever some loan
remains underfunded, and never overpays any single loan. -/
theorem payment_installment_budget_contract (w : Wallet)
    (hnd : (keysOf w.loans).Nodup)
    (_hdef : ∀ p ∈ w.loans, p.2.amount_still_owed.isSome)
    (hB : sumMinSimL w.loans ≤ w.budget_ceiling) :
    installmentOk w w.get_debt_snowball_payment_installment ∧
    installmentOk w w.get_debt_avalanche_payment_installment ∧
    (∀ pay, w.get_debt_spiral_payment_installment = some pay →
      installmentOk w pay) := by
  refine ⟨?_, ?_, ?_⟩
  · exact paymentInstallment_ok w (snowballPriorityIds w.loans) hnd
      (priority_perm_of_pairs w owedQ) hB
  · exact paymentInstallment_ok w (avalanchePriorityIds w.loans) hnd
      ((List.reverse_perm _).trans
        (priority_perm_of_pairs w Loan.yearly_interest_rate)) hB
  · intro pay hpay
    rw [Wallet.get_debt_spiral_payment_installment, Option.map_eq_some'] at hpay
    rcases hpay with ⟨prio, hprio, rfl⟩
    exact paymentInstallment_ok w prio hnd (spiral_prio_perm hprio) hB

/-- Claim C1 witness: instantiated at the two-loan wallet with minimum
simulated payments `50 + 50 = 100` against budget 120. -/
theorem payment_installment_budget_contract_witness :
    installmentOk walletC1 walletC1.get_debt_snowball_payment_installment ∧
    installmentOk walletC1 walletC1.get_debt_avalanche_payment_installment ∧
    (∀ pay, walletC1.get_debt_spiral_payment_installment = some pay →
      installmentOk walletC1 pay) :=
  payment_installment_budget_contract walletC1 (by decide) (by decide)
    (by norm_num [walletC1, sumMinSimL, Loan.minimum_payment_simulation,
      Loan.minimum_payment])

/-! ### Claim C5: termination of the snowball simulation loop -/

theorem recordBalances_loans (w : Wallet) :
    (recordBalances w).loans = w.loans := rfl

theorem monthStep_budget (w : Wallet) :
    (snowballMonthStep w).budget_ceiling = w.budget_ceiling := rfl

/-- The loan dictionary after one snowball month: each balance becomes
`(balance - payment) + (balance - payment) * monthly_rate`. -/
theorem monthStep_loans (w : Wallet) :
    (snowballMonthStep w).loans = w.loans.map (fun p =>
      (p.1, { p.2 with amount_still_owed := some ((owedQ p.2 - w.get_debt_snowball_payment_installment p.1) + (owedQ p.2 - w.get_debt_snowball_payment_installment p.1) * (p.2.monthly_interest_amp - 1)) })) := by
  have hpay : (recordBalances w).get_debt_snowball_payment_installment
      = w.get_debt_snowball_payment_installment := rfl
  have h1 : (snowballMonthStep w).loans
      = ((applyPayments (recordBalances w)
          (w.get_debt_snowball_payment_installment)).loans).map (fun p =>
        (p.1, { p.2 with amount_still_owed := some (owedQ p.2 + p.2.compute_single_cycle_earned_interest_simulation) })) := by
    rw [snowballMonthStep, hpay]
    rfl
  have h2 : (applyPayments (recordBalances w)
      (w.get_debt_snowball_payment_installment)).loans
      = w.loans.map (fun p =>
        (p.1, { p.2 with amount_still_owed := some (owedQ p.2 - w.get_debt_snowball_payment_installment p.1) })) :=
    rfl
  rw [h1, h2, List.map_map]
  apply List.map_congr_left
  intro p _
  simp [Function.comp_def, owedQ,
    Loan.compute_single_cycle_earned_interest_simulation,
    Loan.monthly_interest_amp, Loan.monthly_interest_rate,
    Loan.yearly_interest_rate]

/-- Each loan's minimum simulated payment is at most its (nonnegative)
static minimum payment. -/
theorem minimum_payment_simulation_le_static (l : Loan)
    (h : 0 ≤ l.minimum_payment) :
    l.minimum_payment_simulation ≤ l.minimum_payment := by
  cases howed : l.amount_still_owed with
  | none => simpa [Loan.minimum_payment_simulation, howed] using h
  | some a =>
    simp only [Loan.minimum_payment_simulation, howed]
    split
    · exact le_of_lt (by assumption)
    · exact le_refl _

/-- Under the simulation invariant every minimum payment is positive. -/
theorem min_payment_pos (w : Wallet) (hinv : SimInv w) :
    ∀ p ∈ w.loans, 0 < p.2.minimum_payment := by
  intro p hp
  have hd := hinv.dec_pos p hp
  have hr := hinv.rate_nonneg p hp
  have hP : 0 ≤ p.2.principal_amount :=
    le_trans (hinv.nonneg p hp) (hinv.le_principal p hp)
  have hamp : 0 < p.2.monthly_interest_amp := by
    rw [Loan.monthly_interest_amp]
    linarith
  rw [stepDecrease] at hd
  have hrp : 0 ≤ p.2.monthly_interest_rate * p.2.principal_amount :=
    mul_nonneg hr hP
  by_contra hm
  push_neg at hm
  nlinarith

/-- Under the invariant, the minimum simulated payments fit the budget. -/
theorem sumMinSim_le_budget (w : Wallet) (hinv : SimInv w) :
    sumMinSimL w.loans ≤ w.budget_ceiling := by
  refine le_trans ?_ hinv.budget
  rw [sumMinSimL, sumStaticMin]
  apply List.sum_le_sum
  intro p hp
  exact minimum_payment_simulation_le_static p.2 (min_payment_pos w hinv p hp).le

/-- Snowball payment bounds under the invariant: every loan receives at
least its minimum simulated payment and at most its balance. -/
theorem snowball_pay_bounds (w : Wallet) (hinv : SimInv w) :
    ∀ p ∈ w.loans,
      p.2.minimum_payment_simulation
        ≤ w.get_debt_snowball_payment_installment p.1 ∧
      w.get_debt_snowball_payment_installment p.1 ≤ owedQ p.2 := by
  have hw : w.get_debt_snowball_payment_installment
      = allocateExtra w.loans (snowballPriorityIds w.loans)
        (minPaymentsL w.loans) (w.budget_ceiling - sumMinSimL w.loans) := rfl
  have hperm := priority_perm_of_pairs w owedQ
  have hpn : (snowballPriorityIds w.loans).Nodup :=
    hperm.nodup_iff.mpr hinv.nodup
  have hsub : ∀ id ∈ snowballPriorityIds w.loans, id ∈ keysOf w.loans :=
    fun id h => hperm.subset h
  have hB := sumMinSim_le_budget w hinv
  have hal : 0 ≤ w.budget_ceiling - sumMinSimL w.loans := by linarith
  obtain ⟨h1, _, h3, _, _⟩ := allocateExtra_spec w.loans
    (snowballPriorityIds w.loans) (minPaymentsL w.loans)
    (w.budget_ceiling - sumMinSimL w.loans) hinv.nodup hpn hsub hal
    (minPaymentsL_le_owed w.loans hinv.nodup)
  rintro ⟨pid, pl⟩ hp
  have hkey : pid ∈ keysOf w.loans := List.mem_map.mpr ⟨(pid, pl), hp, rfl⟩
  have hlook : lookupLoan w.loans pid = some pl :=
    lookup_eq_some_of_mem hinv.nodup hp
  have hmin : minPaymentsL w.loans pid = pl.minimum_payment_simulation := by
    rw [minPaymentsL, hlook]
  have howed : owedOfL w.loans pid = owedQ pl := by
    rw [owedOfL, hlook]
  rw [hw]
  constructor
  · have := h1 pid
    rwa [hmin] at this
  · have := h3 pid hkey
    rwa [howed] at this

/-- One month's effect on a single loan: the new balance stays within
`[0, principal]`, the loan measure never grows, and it strictly drops
while the loan still carries a positive balance. -/
theorem loan_step_bounds (l : Loan) (pay : ℚ) (hq0 : 0 ≤ owedQ l)
    (hqP : owedQ l ≤ l.principal_amount) (hr : 0 ≤ l.monthly_interest_rate)
    (hd : 0 < stepDecrease l) (hdef : l.amount_still_owed.isSome)
    (hmin : l.minimum_payment_simulation ≤ pay) (hmax : pay ≤ owedQ l) :
    0 ≤ (owedQ l - pay) + (owedQ l - pay) * (l.monthly_interest_amp - 1) ∧
    (owedQ l - pay) + (owedQ l - pay) * (l.monthly_interest_amp - 1)
      ≤ l.principal_amount ∧
    Nat.ceil (((owedQ l - pay) + (owedQ l - pay)
      * (l.monthly_interest_amp - 1)) / stepDecrease l) ≤ loanMeasure l ∧
    (0 < owedQ l →
      Nat.ceil (((owedQ l - pay) + (owedQ l - pay)
        * (l.monthly_interest_amp - 1)) / stepDecrease l) < loanMeasure l) := by
  obtain ⟨a, howed⟩ := Option.isSome_iff_exists.mp hdef
  have hqa : owedQ l = a := by
    rw [owedQ, howed]
    rfl
  have hA : l.monthly_interest_amp = 1 + l.monthly_interest_rate := rfl
  have hamp1 : (0 : ℚ) ≤ l.monthly_interest_amp - 1 := by
    rw [hA]
    linarith
  have hP : 0 ≤ l.principal_amount := le_trans hq0 hqP
  have hmpos : 0 < l.minimum_payment := by
    rw [stepDecrease] at hd
    have hrp : 0 ≤ l.monthly_interest_rate * l.principal_amount :=
      mul_nonneg hr hP
    nlinarith
  have hq'0 : 0 ≤ (owedQ l - pay) + (owedQ l - pay)
      * (l.monthly_interest_amp - 1) := by
    have h1 : 0 ≤ owedQ l - pay := by linarith
    nlinarith
  have hsim : l.minimum_payment_simulation
      = if owedQ l < l.minimum_payment then owedQ l else l.minimum_payment := by
    rw [Loan.minimum_payment_simulation, howed, ← hqa]
  by_cases hcase : owedQ l < l.minimum_payment
  · -- the whole balance is paid this month
    rw [hsim, if_pos hcase] at hmin
    have hpayq : pay = owedQ l := le_antisymm hmax hmin
    have hzero : (owedQ l - pay) + (owedQ l - pay)
        * (l.monthly_interest_amp - 1) = 0 := by
      rw [hpayq]
      ring
    rw [hzero]
    refine ⟨le_refl 0, hP, ?_, ?_⟩
    · simp
    · intro hqpos
      have : 0 < loanMeasure l := by
        rw [loanMeasure]
        exact Nat.ceil_pos.mpr (div_pos hqpos hd)
      simpa using this
  · -- at least the full minimum payment is made
    rw [hsim, if_neg hcase] at hmin
    push_neg at hcase
    have hqpos : 0 < owedQ l := lt_of_lt_of_le hmpos hcase
    have hprod : (owedQ l - pay) + (owedQ l - pay)
        * (l.monthly_interest_amp - 1)
        = (owedQ l - pay) * l.monthly_interest_amp := by ring
    have hstep : (owedQ l - pay) + (owedQ l - pay)
        * (l.monthly_interest_amp - 1) ≤ owedQ l - stepDecrease l := by
      rw [hprod, stepDecrease]
      have h1 : (owedQ l - pay) * l.monthly_interest_amp
          ≤ (owedQ l - l.minimum_payment) * l.monthly_interest_amp := by
        apply mul_le_mul_of_nonneg_right (by linarith) (by linarith)
      have h2 : (owedQ l - l.minimum_payment) * l.monthly_interest_amp
          = owedQ l + owedQ l * l.monthly_interest_rate
            - l.minimum_payment * l.monthly_interest_amp := by
        rw [hA]
        ring
      have h3 : owedQ l * l.monthly_interest_rate
          ≤ l.principal_amount * l.monthly_interest_rate :=
        mul_le_mul_of_nonneg_right hqP hr
      nlinarith
    have hlt : Nat.ceil (((owedQ l - pay) + (owedQ l - pay)
        * (l.monthly_interest_amp - 1)) / stepDecrease l) < loanMeasure l := by
      rw [loanMeasure]
      apply Nat.lt_ceil.mpr
      calc ((Nat.ceil (((owedQ l - pay) + (owedQ l - pay)
            * (l.monthly_interest_amp - 1)) / stepDecrease l) : ℚ))
          < ((owedQ l - pay) + (owedQ l - pay)
            * (l.monthly_interest_amp - 1)) / stepDecrease l + 1 :=
            Nat.ceil_lt_add_one (div_nonneg hq'0 hd.le)
        _ ≤ (owedQ l - stepDecrease l) / stepDecrease l + 1 := by
            gcongr
        _ = owedQ l / stepDecrease l := by
            field_simp
    refine ⟨hq'0, by linarith, le_of_lt hlt, fun _ => hlt⟩

/-- A positive total balance forces some loan to have a positive balance. -/
theorem exists_pos_owed {w : Wallet} (hinv : SimInv w)
    (h : 0 < w.total_still_owed) : ∃ p ∈ w.loans, 0 < owedQ p.2 := by
  by_contra hc
  push_neg at hc
  have hz : w.total_still_owed = 0 := by
    rw [Wallet.total_still_owed]
    apply List.sum_eq_zero
    intro x hx
    rcases List.mem_map.mp hx with ⟨p, hp, rfl⟩
    exact le_antisymm (hc p hp) (hinv.nonneg p hp)
  rw [hz] at h
  exact lt_irrefl 0 h

/-- The total balance is nonnegative under the invariant. -/
theorem total_nonneg {w : Wallet} (hinv : SimInv w) :
    0 ≤ w.total_still_owed := by
  rw [Wallet.total_still_owed]
  apply List.sum_nonneg
  intro x hx
  rcases List.mem_map.mp hx with ⟨p, hp, rfl⟩
  exact hinv.nonneg p hp

/-- One simulated month preserves the invariant, never grows the wallet
measure, and strictly shrinks it while debt remains. -/
theorem monthStep_invariant (w : Wallet) (hinv : SimInv w) :
    SimInv (snowballMonthStep w) ∧
    walletMeasure (snowballMonthStep w) ≤ walletMeasure w ∧
    (0 < w.total_still_owed →
      walletMeasure (snowballMonthStep w) < walletMeasure w) := by
  have hbounds := snowball_pay_bounds w hinv
  have hstep : ∀ p ∈ w.loans,
      0 ≤ (owedQ p.2 - w.get_debt_snowball_payment_installment p.1)
        + (owedQ p.2 - w.get_debt_snowball_payment_installment p.1)
          * (p.2.monthly_interest_amp - 1) ∧
      (owedQ p.2 - w.get_debt_snowball_payment_installment p.1)
        + (owedQ p.2 - w.get_debt_snowball_payment_installment p.1)
          * (p.2.monthly_interest_amp - 1) ≤ p.2.principal_amount ∧
      Nat.ceil (((owedQ p.2 - w.get_debt_snowball_payment_installment p.1)
        + (owedQ p.2 - w.get_debt_snowball_payment_installment p.1)
          * (p.2.monthly_interest_amp - 1)) / stepDecrease p.2)
        ≤ loanMeasure p.2 ∧
      (0 < owedQ p.2 →
        Nat.ceil (((owedQ p.2 - w.get_debt_snowball_payment_installment p.1)
          + (owedQ p.2 - w.get_debt_snowball_payment_installment p.1)
            * (p.2.monthly_interest_amp - 1)) / stepDecrease p.2)
          < loanMeasure p.2) := by
    intro p hp
    exact loan_step_bounds p.2 (w.get_debt_snowball_payment_installment p.1)
      (hinv.nonneg p hp) (hinv.le_principal p hp) (hinv.rate_nonneg p hp)
      (hinv.dec_pos p hp) (hinv.defined p hp) (hbounds p hp).1 (hbounds p hp).2
  -- notation for the per-loan transformer of `monthStep_loans`
  have hloans := monthStep_loans w
  refine ⟨?_, ?_, ?_⟩
  · refine ⟨?_, ?_, ?_, ?_, ?_, ?_, ?_⟩
    · rw [hloans]
      have := keysOf_map w.loans (fun p =>
        { p.2 with amount_still_owed := some ((owedQ p.2 - w.get_debt_snowball_payment_installment p.1) + (owedQ p.2 - w.get_debt_snowball_payment_installment p.1) * (p.2.monthly_interest_amp - 1)) })
      rw [this]
      exact hinv.nodup
    · rw [hloans]
      rintro p' hp'
      rcases List.mem_map.mp hp' with ⟨p, _, rfl⟩
      simp
    · rw [hloans]
      rintro p' hp'
      rcases List.mem_map.mp hp' with ⟨p, hp, rfl⟩
      simpa [owedQ] using (hstep p hp).1
    · rw [hloans]
      rintro p' hp'
      rcases List.mem_map.mp hp' with ⟨p, hp, rfl⟩
      simpa [owedQ] using (hstep p hp).2.1
    · rw [hloans]
      rintro p' hp'
      rcases List.mem_map.mp hp' with ⟨p, hp, rfl⟩
      exact hinv.rate_nonneg p hp
    · rw [hloans]
      rintro p' hp'
      rcases List.mem_map.mp hp' with ⟨p, hp, rfl⟩
      exact hinv.dec_pos p hp
    · rw [monthStep_budget, hloans]
      have hs : sumStaticMin (w.loans.map (fun p =>
          (p.1, { p.2 with amount_still_owed := some ((owedQ p.2 - w.get_debt_snowball_payment_installment p.1) + (owedQ p.2 - w.get_debt_snowball_payment_installment p.1) * (p.2.monthly_interest_amp - 1)) })))
          = sumStaticMin w.loans := by
        rw [sumStaticMin, sumStaticMin, List.map_map]
        rfl
      rw [hs]
      exact hinv.budget
  · rw [walletMeasure, walletMeasure, hloans, List.map_map]
    apply List.sum_le_sum
    intro p hp
    simpa [Function.comp_def, loanMeasure, owedQ] using (hstep p hp).2.2.1
  · intro hpos
    rcases exists_pos_owed hinv hpos with ⟨p0, hp0, hq0⟩
    rw [walletMeasure, walletMeasure, hloans, List.map_map]
    apply List.sum_lt_sum
    · intro p hp
      simpa [Function.comp_def, loanMeasure, owedQ] using (hstep p hp).2.2.1
    · refine ⟨p0, hp0, ?_⟩
      simpa [Function.comp_def, loanMeasure, owedQ] using
        (hstep p0 hp0).2.2.2 hq0

/-- A wallet of measure zero has zero total debt. -/
theorem total_zero_of_measure_zero {w : Wallet} (hinv : SimInv w)
    (h : walletMeasure w = 0) : w.total_still_owed = 0 := by
  rw [Wallet.total_still_owed]
  apply List.sum_eq_zero
  intro x hx
  rcases List.mem_map.mp hx with ⟨p, hp, rfl⟩
  have hm : loanMeasure p.2 = 0 := by
    rw [walletMeasure] at h
    have := List.sum_eq_zero_iff.mp h
    exact this (loanMeasure p.2) (List.mem_map.mpr ⟨p, hp, rfl⟩)
  rw [loanMeasure, Nat.ceil_eq_zero] at hm
  have hd := hinv.dec_pos p hp
  have hle : owedQ p.2 ≤ 0 := by
    by_contra hq
    push_neg at hq
    exact absurd hm (not_le.mpr (div_pos hq hd))
  exact le_antisymm hle (hinv.nonneg p hp)

/-- Iterating the month step preserves the invariant. -/
theorem simInv_iterate (w : Wallet) (hinv : SimInv w) :
    ∀ n, SimInv (snowballMonthStep^[n] w) := by
  intro n
  induction n with
  | zero => exact hinv
  | succ n ih =>
    rw [Function.iterate_succ_apply']
    exact (monthStep_invariant _ ih).1

/-- Within `walletMeasure` many months the total debt reaches zero. -/
theorem total_zero_within (k : Nat) :
    ∀ w : Wallet, SimInv w → walletMeasure w ≤ k →
    ∃ n ≤ k, (snowballMonthStep^[n] w).total_still_owed = 0 := by
  induction k with
  | zero =>
    intro w hinv hk
    exact ⟨0, le_refl 0,
      total_zero_of_measure_zero hinv (Nat.le_zero.mp hk)⟩
  | succ k ih =>
    intro w hinv hk
    by_cases hz : w.total_still_owed = 0
    · exact ⟨0, Nat.zero_le _, hz⟩
    · have hpos : 0 < w.total_still_owed :=
        lt_of_le_of_ne (total_nonneg hinv) (Ne.symm hz)
      obtain ⟨hinv', _, hdec⟩ := monthStep_invariant w hinv
      have hm : walletMeasure (snowballMonthStep w) ≤ k :=
        Nat.lt_succ_iff.mp (lt_of_lt_of_le (hdec hpos) hk)
      obtain ⟨n, hn, hzero⟩ := ih (snowballMonthStep w) hinv' hm
      refine ⟨n + 1, Nat.succ_le_succ hn, ?_⟩
      rwa [Function.iterate_succ_apply]

/-- A loop run with enough fuel to reach zero debt returns `some`. -/
theorem snowballLoop_some (fuel : Nat) :
    ∀ (w : Wallet) (m : Nat), SimInv w →
    (∃ n ≤ fuel, (snowballMonthStep^[n] w).total_still_owed = 0) →
    ∃ w' m', snowballLoop fuel w m = some (w', m')
      ∧ w'.total_still_owed = 0 := by
  induction fuel with
  | zero =>
    intro w m _ hex
    obtain ⟨n, hn, hzero⟩ := hex
    rw [Nat.le_zero.mp hn] at hzero
    simp only [Function.iterate_zero_apply] at hzero
    refine ⟨w, m, ?_, hzero⟩
    rw [snowballLoop, if_neg]
    rw [hzero]
    exact lt_irrefl 0
  | succ fuel ih =>
    intro w m hinv hex
    by_cases hpos : 0 < w.total_still_owed
    · obtain ⟨n, hn, hzero⟩ := hex
      cases n with
      | zero =>
        simp only [Function.iterate_zero_apply] at hzero
        rw [hzero] at hpos
        exact absurd hpos (lt_irrefl 0)
      | succ n0 =>
        rw [Function.iterate_succ_apply] at hzero
        obtain ⟨w', m', hloop, hzero'⟩ := ih (snowballMonthStep w) (m + 1)
          (monthStep_invariant w hinv).1 ⟨n0, Nat.succ_le_succ_iff.mp hn, hzero⟩
        refine ⟨w', m', ?_, hzero'⟩
        rw [snowballLoop, if_pos hpos]
        exact hloop
    · have hz : w.total_still_owed = 0 :=
        le_antisymm (not_lt.mp hpos) (total_nonneg hinv)
      refine ⟨w, m, ?_, hz⟩
      rw [snowballLoop, if_neg hpos]

/-- Claim C5 (amended): for every wallet with distinct loan ids,
nonnegative principals and APRs, in which every loan's minimum payment
outruns the interest on its principal
(`monthly_rate * principal < minimum_payment * (1 + monthly_rate)`, true
in particular for non-overridden minimum payments of loans with positive
principal) and whose budget ceiling strictly exceeds the sum of the
minimum payments, the snowball simulation loop terminates: with enough
fuel the plan is produced with total owed exactly 0, and the total owed
never drops below 0 in any simulated month. -/
theorem snowball_plan_terminates (w : Wallet)
    (hnd : (keysOf w.loans).Nodup)
    (hP : ∀ p ∈ w.loans, 0 ≤ p.2.principal_amount)
    (hapr : ∀ p ∈ w.loans, 0 ≤ p.2.apr)
    (hmin : ∀ p ∈ w.loans, p.2.monthly_interest_rate * p.2.principal_amount
      < p.2.minimum_payment * p.2.monthly_interest_amp)
    (hB : sumStaticMin w.loans < w.budget_ceiling) :
    ∃ N, (∀ fuel, N ≤ fuel → ∃ w',
        w.generate_debt_snowball_plan fuel = some w' ∧
        w'.total_still_owed = 0 ∧
        w'.method_used_name = some "Debt-Snowball" ∧
        w'.months_in_history.isSome = true) ∧
      (∀ k, 0 ≤ (snowballMonthStep^[k] (initSimulation w)).total_still_owed) := by
  have hinit : (initSimulation w).loans = w.loans.map (fun p =>
      (p.1, { p.2 with amount_still_owed := some p.2.principal_amount })) := rfl
  have hinv0 : SimInv (initSimulation w) := by
    refine ⟨?_, ?_, ?_, ?_, ?_, ?_, ?_⟩
    · rw [hinit, keysOf_map]
      exact hnd
    · rw [hinit]
      rintro p' hp'
      rcases List.mem_map.mp hp' with ⟨p, _, rfl⟩
      simp
    · rw [hinit]
      rintro p' hp'
      rcases List.mem_map.mp hp' with ⟨p, hp, rfl⟩
      simpa [owedQ] using hP p hp
    · rw [hinit]
      rintro p' hp'
      rcases List.mem_map.mp hp' with ⟨p, hp, rfl⟩
      simp [owedQ]
    · rw [hinit]
      rintro p' hp'
      rcases List.mem_map.mp hp' with ⟨p, hp, rfl⟩
      have : 0 ≤ p.2.apr := hapr p hp
      rw [Loan.monthly_interest_rate, Loan.yearly_interest_rate]
      positivity
    · rw [hinit]
      rintro p' hp'
      rcases List.mem_map.mp hp' with ⟨p, hp, rfl⟩
      show 0 < stepDecrease p.2
      rw [stepDecrease]
      have := hmin p hp
      linarith
    · have hs : sumStaticMin (initSimulation w).loans
          = sumStaticMin w.loans := by
        rw [hinit, sumStaticMin, sumStaticMin, List.map_map]
        rfl
      rw [hs]
      have : (initSimulation w).budget_ceiling = w.budget_ceiling := rfl
      rw [this]
      exact hB.le
  refine ⟨walletMeasure (initSimulation w), ?_, ?_⟩
  · intro fuel hfuel
    obtain ⟨n, hn, hz⟩ := total_zero_within
      (walletMeasure (initSimulation w)) (initSimulation w) hinv0 (le_refl _)
    obtain ⟨w0, m0, hloop, hz0⟩ := snowballLoop_some fuel (initSimulation w) 0
      hinv0 ⟨n, le_trans hn hfuel, hz⟩
    refine ⟨{ w0 with
        method_used_name := some "Debt-Snowball"
        months_in_history := some m0 }, ?_, hz0, rfl, rfl⟩
    rw [Wallet.generate_debt_snowball_plan, hloop]
    rfl
  · intro k
    exact total_nonneg (simInv_iterate (initSimulation w) hinv0 k)

/-- Claim C5 witness: the amended termination statement instantiated at
`walletC5` (one zero-APR loan of 1200 over 12 months, minimum payment
100, budget 150). -/
theorem snowball_plan_terminates_witness :
    ∃ N, (∀ fuel, N ≤ fuel → ∃ w',
        walletC5.generate_debt_snowball_plan fuel = some w' ∧
        w'.total_still_owed = 0 ∧
        w'.method_used_name = some "Debt-Snowball" ∧
        w'.months_in_history.isSome = true) ∧
      (∀ k, 0 ≤ (snowballMonthStep^[k]
        (initSimulation walletC5)).total_still_owed) :=
  snowball_plan_terminates walletC5 (by decide)
    (by
      rintro p hp
      rcases List.mem_cons.mp hp with rfl | hp'
      · norm_num [loanC8]
      · simp at hp')
    (by
      rintro p hp
      rcases List.mem_cons.mp hp with rfl | hp'
      · norm_num [loanC8]
      · simp at hp')
    (by
      rintro p hp
      rcases List.mem_cons.mp hp with rfl | hp'
      · norm_num [loanC8, Loan.monthly_interest_rate,
          Loan.yearly_interest_rate, Loan.monthly_interest_amp,
          Loan.minimum_payment, Loan.compute_minimum_required_payment]
      · simp at hp')
    (by norm_num [walletC5, sumStaticMin, loanC8, Loan.minimum_payment,
      Loan.compute_minimum_required_payment, Loan.monthly_interest_rate,
      Loan.yearly_interest_rate])

/-- The counterexample loan's minimum simulated payment is its override. -/
theorem walletX_min_sim (q : ℚ) (hq : (10 : ℚ) ≤ q) :
    (loanX q).minimum_payment_simulation = 10 := by
  simp only [Loan.minimum_payment_simulation, Loan.minimum_payment, loanX]
  rw [if_neg (not_lt.mpr hq)]

/-- The counterexample wallet pays out its full budget every month. -/
theorem walletX_pay (q : ℚ) (hq : (10000 : ℚ) ≤ q) :
    paymentInstallment [(0, loanX q)] 20
      (snowballPriorityIds [(0, loanX q)]) 0 = 20 := by
  have hprio : snowballPriorityIds [(0, loanX q)] = [0] := rfl
  have hmins : (loanX q).minimum_payment_simulation = 10 :=
    walletX_min_sim q (by linarith)
  have hsum : sumMinSimL [(0, loanX q)] = 10 := by
    simp [sumMinSimL, hmins]
  have howed : owedOfL [(0, loanX q)] 0 = q := by
    simp [owedOfL, lookupLoan, List.lookup, loanX, owedQ]
  have hmp : minPaymentsL [(0, loanX q)] 0 = 10 := by
    simp [minPaymentsL, lookupLoan, List.lookup, hmins]
  rw [paymentInstallment, hprio, hsum, allocateExtra, howed, hmp]
  rw [if_neg (by intro h; linarith : ¬(q - 10 = 0))]
  rw [if_pos (by linarith : (20 : ℚ) - 10 ≤ q - 10)]
  rw [updateFn_same]
  norm_num

/-- One month of the counterexample: the budget stays 20, and the single
balance stays at least 10000 (it in fact grows). -/
theorem walletX_step {w : Wallet} (hb : w.budget_ceiling = 20) {q : ℚ}
    (hq : 10000 ≤ q) (hl : w.loans = [(0, loanX q)]) :
    (snowballMonthStep w).budget_ceiling = 20 ∧
    (∃ q', 10000 ≤ q' ∧ (snowballMonthStep w).loans = [(0, loanX q')]) ∧
    0 < w.total_still_owed := by
  have hpos : 0 < w.total_still_owed := by
    rw [Wallet.total_still_owed, hl]
    simp [owedQ, loanX]
    linarith
  have hpay : w.get_debt_snowball_payment_installment 0 = 20 := by
    have hinst : w.get_debt_snowball_payment_installment
        = paymentInstallment w.loans w.budget_ceiling
          (snowballPriorityIds w.loans) := rfl
    rw [hinst, hl, hb]
    exact walletX_pay q hq
  refine ⟨by rw [monthStep_budget, hb],
    ⟨(q - 20) + (q - 20) * ((loanX q).monthly_interest_amp - 1), ?_, ?_⟩,
    hpos⟩
  · have hamp : (loanX q).monthly_interest_amp - 1 = 1 / 50 := by
      norm_num [loanX, Loan.monthly_interest_amp, Loan.monthly_interest_rate,
        Loan.yearly_interest_rate]
    rw [hamp]
    linarith
  · rw [monthStep_loans, hl]
    simp only [List.map_cons, List.map_nil]
    rw [show owedQ (loanX q) = q from rfl, hpay]
    rfl

/-- With the counterexample invariant the loop never produces a result. -/
theorem walletX_loop_none (fuel : Nat) :
    ∀ (w : Wallet) (m : Nat), w.budget_ceiling = 20 →
    (∃ q, 10000 ≤ q ∧ w.loans = [(0, loanX q)]) →
    snowballLoop fuel w m = none := by
  induction fuel with
  | zero =>
    rintro w m hb ⟨q, hq, hl⟩
    have hpos : 0 < w.total_still_owed := by
      rw [Wallet.total_still_owed, hl]
      simp [owedQ, loanX]
      linarith
    rw [snowballLoop, if_pos hpos]
  | succ fuel ih =>
    rintro w m hb ⟨q, hq, hl⟩
    obtain ⟨hb', hex, hpos⟩ := walletX_step hb hq hl
    rw [snowballLoop, if_pos hpos]
    exact ih (snowballMonthStep w) (m + 1) hb' hex

/-- Claim C5 counterexample: `walletX` satisfies the claim's hypothesis —
its budget ceiling 20 strictly exceeds the sum of the (overridden) minimum
payments, 10 — yet `generate_debt_snowball_plan` never terminates: the
monthly interest on a balance of at least 10000 at 24% APR (at least 199)
always outruns the 20 paid, so the balance grows every month. -/
theorem snowball_plan_nontermination_cex :
    sumStaticMin walletX.loans < walletX.budget_ceiling ∧
    ¬ planTerminates walletX := by
  constructor
  · norm_num [sumStaticMin, walletX, loanX, Loan.minimum_payment]
  · rintro ⟨fuel, w', hw'⟩
    have hinit_b : (initSimulation walletX).budget_ceiling = 20 := rfl
    have hinit_l : (initSimulation walletX).loans = [(0, loanX 10000)] := rfl
    have hnone := walletX_loop_none fuel (initSimulation walletX) 0 hinit_b
      ⟨10000, le_refl _, hinit_l⟩
    rw [Wallet.generate_debt_snowball_plan, hnone] at hw'
    simp at hw'

/-! ### Claim C6: history lengths equal the months elapsed -/

theorem appendHistory_fst (h : List (LoanId × List ℚ)) (f : LoanId → ℚ) :
    (appendHistory h f).map Prod.fst = h.map Prod.fst := by
  simp [appendHistory, List.map_map, Function.comp_def]

theorem appendHistory_len {h : List (LoanId × List ℚ)} {f : LoanId → ℚ}
    {m : Nat} (hlen : ∀ p ∈ h, p.2.length = m) :
    ∀ p ∈ appendHistory h f, p.2.length = m + 1 := by
  rintro p' hp'
  rcases List.mem_map.mp hp' with ⟨p, hp, rfl⟩
  simp [hlen p hp]

/-- One snowball month appends exactly one entry to every history
sequence, preserving the key alignment. -/
theorem monthStep_histShape {w : Wallet} {m : Nat} (h : HistShape w m) :
    HistShape (snowballMonthStep w) (m + 1) := by
  obtain ⟨hb, hp, hi, hbl, hpl, hil⟩ := h
  have hkeys : keysOf (snowballMonthStep w).loans = keysOf w.loans := by
    rw [monthStep_loans, keysOf_map]
  have hbal : (snowballMonthStep w).balance_history
      = appendHistory w.balance_history (owedOfL w.loans) := rfl
  have hpay : (snowballMonthStep w).payment_history
      = appendHistory w.payment_history
        (w.get_debt_snowball_payment_installment) := rfl
  have hint : (snowballMonthStep w).interest_history
      = appendHistory w.interest_history
        (cycleInterestOf (applyPayments (recordBalances w)
          ((recordBalances w).get_debt_snowball_payment_installment)).loans) :=
    rfl
  refine ⟨?_, ?_, ?_, ?_, ?_, ?_⟩
  · rw [hbal, appendHistory_fst, hkeys]
    exact hb
  · rw [hpay, appendHistory_fst, hkeys]
    exact hp
  · rw [hint, appendHistory_fst, hkeys]
    exact hi
  · rw [hbal]
    exact appendHistory_len hbl
  · rw [hpay]
    exact appendHistory_len hpl
  · rw [hint]
    exact appendHistory_len hil

/-- The loop returns histories shaped by the final month counter. -/
theorem snowballLoop_shape (fuel : Nat) :
    ∀ (w : Wallet) (m : Nat) (w' : Wallet) (m' : Nat), HistShape w m →
    snowballLoop fuel w m = some (w', m') →
    HistShape w' m' ∧ keysOf w'.loans = keysOf w.loans := by
  induction fuel with
  | zero =>
    intro w m w' m' hshape heq
    by_cases hpos : 0 < w.total_still_owed
    · rw [snowballLoop, if_pos hpos] at heq
      exact absurd heq (by simp)
    · rw [snowballLoop, if_neg hpos, Option.some_inj] at heq
      cases heq
      exact ⟨hshape, rfl⟩
  | succ fuel ih =>
    intro w m w' m' hshape heq
    by_cases hpos : 0 < w.total_still_owed
    · rw [snowballLoop, if_pos hpos] at heq
      obtain ⟨hshape', hkeys⟩ := ih (snowballMonthStep w) (m + 1) w' m'
        (monthStep_histShape hshape) heq
      refine ⟨hshape', ?_⟩
      rw [hkeys, monthStep_loans, keysOf_map]
    · rw [snowballLoop, if_neg hpos, Option.some_inj] at heq
      cases heq
      exact ⟨hshape, rfl⟩

/-- Claim C6: after any completed `generate_debt_snowball_plan` run, the
three history dictionaries are keyed exactly by the loan ids and, for
every loan id, `balance_history`, `payment_history` and `interest_history`
all have length equal to the recorded `months_in_history`. -/
theorem history_lengths_equal_months (w : Wallet) (fuel : Nat) (w' : Wallet)
    (h : w.generate_debt_snowball_plan fuel = some w') :
    ∃ m, w'.months_in_history = some m ∧
      w'.balance_history.map Prod.fst = keysOf w.loans ∧
      w'.payment_history.map Prod.fst = keysOf w.loans ∧
      w'.interest_history.map Prod.fst = keysOf w.loans ∧
      (∀ p ∈ w'.balance_history, p.2.length = m) ∧
      (∀ p ∈ w'.payment_history, p.2.length = m) ∧
      (∀ p ∈ w'.interest_history, p.2.length = m) := by
  rw [Wallet.generate_debt_snowball_plan, Option.map_eq_some'] at h
  rcases h with ⟨⟨w0, m0⟩, hloop, rfl⟩
  have hshape0 : HistShape (initSimulation w) 0 := by
    refine ⟨?_, ?_, ?_, ?_, ?_, ?_⟩ <;>
      simp [initSimulation, keysOf, List.map_map, Function.comp_def]
  obtain ⟨⟨hb, hp, hi, hbl, hpl, hil⟩, hkeys⟩ :=
    snowballLoop_shape fuel (initSimulation w) 0 w0 m0 hshape0 hloop
  have hkinit : keysOf (initSimulation w).loans = keysOf w.loans := by
    rw [show (initSimulation w).loans = w.loans.map (fun p =>
      (p.1, { p.2 with amount_still_owed := some p.2.principal_amount }))
      from rfl, keysOf_map]
  rw [hkinit] at hkeys
  exact ⟨m0, rfl, by rwa [hkeys] at hb, by rwa [hkeys] at hp,
    by rwa [hkeys] at hi, hbl, hpl, hil⟩

/-- Claim C6 witness: `walletH` (one loan of 200 paid at 100/month) runs to
completion in two months, and the theorem applies to the completed run. -/
theorem history_lengths_equal_months_witness :
    ∃ w' m, walletH.generate_debt_snowball_plan 5 = some w' ∧
      w'.months_in_history = some m ∧
      w'.balance_history.map Prod.fst = keysOf walletH.loans ∧
      w'.payment_history.map Prod.fst = keysOf walletH.loans ∧
      w'.interest_history.map Prod.fst = keysOf walletH.loans ∧
      (∀ p ∈ w'.balance_history, p.2.length = m) ∧
      (∀ p ∈ w'.payment_history, p.2.length = m) ∧
      (∀ p ∈ w'.interest_history, p.2.length = m) := by
  have hsome : (walletH.generate_debt_snowball_plan 5).isSome = true := by
    norm_num [Wallet.generate_debt_snowball_plan, snowballLoop,
      snowballMonthStep, initSimulation, recordBalances, applyPayments,
      accrueInterest, Wallet.get_debt_snowball_payment_installment,
      paymentInstallment, allocateExtra, minPaymentsL, sumMinSimL,
      snowballPriorityIds, sortPairs, insertPair, owedOfL, owedQ, lookupLoan,
      updateFn, appendHistory, Wallet.total_still_owed, cycleInterestOf,
      Loan.minimum_payment_simulation, Loan.minimum_payment,
      Loan.compute_single_cycle_earned_interest_simulation,
      Loan.monthly_interest_amp, Loan.monthly_interest_rate,
      Loan.yearly_interest_rate, loanH, walletH, List.lookup]
  obtain ⟨w', hw'⟩ := Option.isSome_iff_exists.mp hsome
  obtain ⟨m, h1, h2, h3, h4, h5, h6, h7⟩ :=
    history_lengths_equal_months walletH 5 w' hw'
  exact ⟨w', m, hw', h1, h2, h3, h4, h5, h6, h7⟩

end PyDebtZero
